import Mathlib

/-!
# rewind-lab: optimistic replication and lag-compensated attack resolution

A shallow embedding of `Attack.cpp`, `Attack.h`,
`OptimisticHostScenarioState.cpp` and `OptimisticClientScenarioState.cpp`.

Conventions of the embedding

* `float` values are the rationals `ℚ` (exact arithmetic).  `system_dt` is `1/30`.
* `u_long` values are `Nat`; the pre-increment `++local_frame_` is taken modulo `2^32`.
* `Update()` is a function of the state before the tick and of what the tick
  observes from outside (keys, the result of `recv`); it returns the state after
  the tick together with what the tick emitted (`send`, `std::cout`).
* Classes used by the sources but declared elsewhere (the replication controls,
  `DoubleOrbitControl`, `PacketSerializer`, `LabMath`) are parameters of the
  embedding or are modelled from the specification, as stated at each definition.
* `NetworkedScenarioState::Update()` and `ScenarioState::Draw()` (base classes)
  touch none of the members embedded here and are left out.
-/

namespace RewindLab

/-! ## Values shared by host and client -/

/-- Field layout of `SyncRatio` as used at `Attack::Set` call sites:
`{ base_frame, target_frame, t }`. -/
structure SyncRatio where
  base_frame : Nat
  target_frame : Nat
  t : ℚ
deriving DecidableEq, Repr

/-- Value-initialised `SyncRatio{}` / `SyncRatio()`. -/
def SyncRatio.zero : SyncRatio := ⟨0, 0, 0⟩

/-- Colour value `CP_Color { r, g, b, a }`. -/
structure CP_Color where
  r : Nat
  g : Nat
  b : Nat
  a : Nat
deriving DecidableEq, Repr

/-- The call `CP_Color_Create(r, g, b, a)`. -/
def CP_Color_Create (r g b a : Nat) : CP_Color := ⟨r, g, b, a⟩

/-- Constant `kAttackRadius = 100.0f` of `Attack.cpp`. -/
def kAttackRadius : ℚ := 100

/-- Modelled from the spec: `LabMath::IsWithinDistance` (LabMath.h is not among the
sources).  "Hit test: Euclidean distance between attacker position and resolved
target position ≤ a fixed attack radius", compared on squares. -/
def IsWithinDistance (x1 y1 x2 y2 distance : ℚ) : Bool :=
  decide ((x2 - x1) ^ 2 + (y2 - y1) ^ 2 ≤ distance ^ 2)

/-- Members of `struct Attack` (Attack.h), with their default member initialisers. -/
structure Attack where
  x_ : ℚ := 0
  y_ : ℚ := 0
  target_x_ : ℚ := 0
  target_y_ : ℚ := 0
  alpha_ : Int := 0
  is_target_hit_ : Bool := false
  sync_ratio_ : SyncRatio := SyncRatio.zero
  attack_color_ : CP_Color := ⟨255, 255, 255, 0⟩
  target_draw_size_ : ℚ := 25
  target_color_ : CP_Color := ⟨255, 0, 255, 0⟩
deriving DecidableEq, Repr

namespace Attack

/-- Method `Attack::Set` (Attack.cpp 17-26). -/
def Set (a : Attack) (attack_x attack_y target_x target_y : ℚ) (attack_sync : SyncRatio) :
    Attack :=
  { a with
    x_ := attack_x
    y_ := attack_y
    target_x_ := target_x
    target_y_ := target_y
    is_target_hit_ := IsWithinDistance attack_x attack_y target_x target_y kAttackRadius
    sync_ratio_ := attack_sync
    alpha_ := 255 }

/-- Method `Attack::IsVisible`: `alpha_ > 0`. -/
def IsVisible (a : Attack) : Bool := decide (a.alpha_ > 0)

/-- Method `Attack::Draw` (Attack.cpp 29-51).  The drawing calls have no effect on the
object; what remains is the early return and `alpha_ -= 2`. -/
def Draw (a : Attack) (_draw_attack _draw_target : Bool) : Attack :=
  if !a.IsVisible then a
  else { a with alpha_ := a.alpha_ - 2 }

def SetAttackColor (a : Attack) (color : CP_Color) : Attack := { a with attack_color_ := color }
def SetTargetColor (a : Attack) (color : CP_Color) : Attack := { a with target_color_ := color }
def SetTargetSize (a : Attack) (target_size : ℚ) : Attack :=
  { a with target_draw_size_ := target_size }
def GetAttackX (a : Attack) : ℚ := a.x_
def GetAttackY (a : Attack) : ℚ := a.y_
def GetTargetX (a : Attack) : ℚ := a.target_x_
def GetTargetY (a : Attack) : ℚ := a.target_y_
def IsTargetHit (a : Attack) : Bool := a.is_target_hit_
def GetSyncRatio (a : Attack) : SyncRatio := a.sync_ratio_

/-- A sequence of `Draw(draw_attack, draw_target)` calls with no `Set` in between, the
first call first. -/
def Draws (a : Attack) (calls : List (Bool × Bool)) : Attack :=
  calls.foldl (fun attack call => attack.Draw call.1 call.2) a

end Attack

/-! ## The packet buffer -/

/-- One serialised value of a packet: `u_long`, `bool` or `float`. -/
inductive Field where
  | u32 (n : Nat)
  | bool (b : Bool)
  | f32 (q : ℚ)
deriving DecidableEq, Repr

/-- Modelled from the spec: the `Packet` buffer (its class is not among the sources):
"a cursor-based buffer with explicit used space tracking; the buffer is reset to empty
before each read/write cycle".  `data` is the buffer content in fields, `used` the
cursor. -/
structure Packet where
  data : List Field := []
  used : Nat := 0
deriving DecidableEq, Repr

namespace Packet

/-- Method `packet_.Reset()`. -/
def Reset (_p : Packet) : Packet := { data := [], used := 0 }

/-- The call `recv(socket_, packet_.GetRoot(), ...)` with a positive result: the received
fields are placed at the root of the buffer, the cursor is not moved. -/
def Fill (p : Packet) (received : List Field) : Packet := { p with data := received }

/-- What `send(socket_, packet_.GetRoot(), packet_.GetUsedSpace(), 0)` transmits. -/
def Sent (p : Packet) : List Field := p.data.take p.used

end Packet

/-- Modelled from the spec: `PacketSerializer::ReadValue<T>` / `WriteValue<T>` (the class is
not among the sources): "all multi-byte numeric fields are written/read individually via
a cursor-based buffer".  A read takes the field under the cursor and advances the cursor;
the source never checks a read, so a read that finds no field of the requested type
yields the zero value. -/
def PacketSerializer.ReadValue_u_long (p : Packet) : Nat × Packet :=
  (match p.data.get? p.used with
   | some (Field.u32 n) => n
   | _ => 0,
   { p with used := p.used + 1 })

/-- Modelled from the spec: `PacketSerializer::ReadValue<bool>`, see `ReadValue_u_long`. -/
def PacketSerializer.ReadValue_bool (p : Packet) : Bool × Packet :=
  (match p.data.get? p.used with
   | some (Field.bool b) => b
   | _ => false,
   { p with used := p.used + 1 })

/-- Modelled from the spec: `PacketSerializer::ReadValue<float>`, see `ReadValue_u_long`. -/
def PacketSerializer.ReadValue_float (p : Packet) : ℚ × Packet :=
  (match p.data.get? p.used with
   | some (Field.f32 q) => q
   | _ => 0,
   { p with used := p.used + 1 })

/-- Modelled from the spec: `PacketSerializer::WriteValue<T>`: the field is stored at the
cursor and the cursor advances. -/
def PacketSerializer.WriteField (p : Packet) (v : Field) : Packet :=
  { data := p.data.take p.used ++ [v], used := p.used + 1 }

def PacketSerializer.WriteValue_u_long (p : Packet) (v : Nat) : Packet :=
  PacketSerializer.WriteField p (Field.u32 v)

def PacketSerializer.WriteValue_bool (p : Packet) (v : Bool) : Packet :=
  PacketSerializer.WriteField p (Field.bool v)

def PacketSerializer.WriteValue_float (p : Packet) (v : ℚ) : Packet :=
  PacketSerializer.WriteField p (Field.f32 v)

/-- The frame number a receiver reads first from a transmitted message. -/
def frameOf (msg : List Field) : Nat :=
  (PacketSerializer.ReadValue_u_long { data := msg, used := 0 }).1

/-- The drawn player: `SetPosition(x, y)` and the public `color` member. -/
structure Player where
  x : ℚ := 0
  y : ℚ := 0
  color : CP_Color := ⟨0, 0, 0, 0⟩
deriving DecidableEq, Repr

def Player.SetPosition (p : Player) (x y : ℚ) : Player := { p with x := x, y := y }

/-- The three-float aggregate `{ x, y, time }` stored in a history record by the host and
handed to `AddSnapshot` by the client. -/
structure Snapshot where
  x : ℚ
  y : ℚ
  time : ℚ
deriving DecidableEq, Repr

/-- The constant `system_dt = 1.0f / 30.0f` of both `Update` methods. -/
def system_dt : ℚ := 1 / 30

/-- Width of `u_long` on the target platform. -/
def kFrameModulus : Nat := 2 ^ 32

/-! ## The host (OptimisticHostScenarioState.cpp) -/

/-- Constant `kDrawLocalHit_Secs = 2.0f`. -/
def kDrawLocalHit_Secs : ℚ := 2

/-- Constant `kLocalStateHistorySize = 100`. -/
def kLocalStateHistorySize : Nat := 100

/-- The class `DoubleOrbitControl` is declared outside the sources at hand; the host code
is embedded over any implementation of the methods it calls. -/
structure HostEnv where
  DoubleOrbitControl : Type
  ControlState : Type
  /-- Constructor `DoubleOrbitControl(a, b, c, d)` -/
  Create : ℚ → ℚ → ℚ → ℚ → DoubleOrbitControl
  Update : DoubleOrbitControl → ℚ → DoubleOrbitControl
  GetCurrentX : DoubleOrbitControl → ℚ
  GetCurrentY : DoubleOrbitControl → ℚ
  GetCurrentVelocityX : DoubleOrbitControl → ℚ
  GetCurrentVelocityY : DoubleOrbitControl → ℚ
  GetState : DoubleOrbitControl → ControlState

/-- An element of `local_state_history_`: `{ frame, control state, { x, y, time } }`
as built at OptimisticHostScenarioState.cpp 153. -/
structure ControlStateRecord (S : Type) where
  frame : Nat
  state : S
  snapshot : Snapshot

/-- Members of `OptimisticHostScenarioState`. -/
structure HostState (E : HostEnv) where
  local_control_ : E.DoubleOrbitControl
  remote_control_ : E.DoubleOrbitControl
  local_player_ : Player
  remote_player_ : Player
  is_remote_paused_ : Bool
  is_client_attack_queued_ : Bool
  client_attack_ : Attack
  local_hit_timer_secs_ : ℚ
  local_frame_ : Nat
  remote_frame_ : Nat
  send_timer_secs_ : ℚ
  target_time_between_send_ : ℚ
  packet_ : Packet
  local_state_history_ : List (ControlStateRecord E.ControlState)

/-- What one host tick observes from outside. -/
structure HostInput where
  /-- Result of `CP_Input_KeyTriggered(KEY_W)` -/
  key_W_triggered : Bool
  /-- Result of `CP_Input_KeyDown(KEY_SPACE)` -/
  key_SPACE_down : Bool
  /-- Result of `CP_Input_KeyTriggered(KEY_SPACE)` -/
  key_SPACE_triggered : Bool
  /-- Result of `recv`: `some fields` when it returned `res > 0`, `none` otherwise -/
  received : Option (List Field)
deriving DecidableEq, Repr

/-- The two lines the host prints to `std::cout` on a history miss. -/
inductive HostDiagnostic where
  | base_not_found (base_attack_frame : Nat)
  | target_not_found (base_attack_frame target_attack_frame : Nat)
deriving DecidableEq, Repr

/-- What one host tick emits: the message passed to `send`, the line printed. -/
structure HostOutput where
  sent : Option (List Field)
  printed : Option HostDiagnostic
deriving DecidableEq, Repr

/-- The values the receive block reads out of the packet (lines 75-95): only the frame
number for a message that is not newer, then `is_remote_paused_` and
`is_client_attacking`, then the five attack fields when `is_client_attacking`. -/
inductive HostRead where
  | stale (received_frame : Nat)
  | control (received_frame : Nat) (is_paused : Bool)
  | attack (received_frame : Nat) (is_paused : Bool) (attack_x attack_y : ℚ)
      (base_attack_frame target_attack_frame : Nat) (attack_t : ℚ)
deriving DecidableEq, Repr

namespace HostState

variable {E : HostEnv}

/-- The constructor `OptimisticHostScenarioState(socket)` (lines 23-38). -/
def Create (E : HostEnv) : HostState E where
  local_control_ := E.Create 200 250 100 (3 / 2)
  remote_control_ := E.Create 200 150 100 2
  local_player_ := { color := CP_Color_Create 255 0 0 255 }
  remote_player_ := { color := CP_Color_Create 0 0 255 255 }
  is_remote_paused_ := false
  is_client_attack_queued_ := false
  client_attack_ := {}
  local_hit_timer_secs_ := 0
  local_frame_ := 0
  remote_frame_ := 0
  send_timer_secs_ := 0
  target_time_between_send_ := 0
  packet_ := {}
  local_state_history_ := []

/-- Lines 48-69 of `Update`: send-target key, pause keys, advancing both controls,
positioning both players. -/
def Advance (s : HostState E) (i : HostInput) : HostState E :=
  let target :=
    if i.key_W_triggered then
      (if s.target_time_between_send_ + 1 / 10 > 1 / 2 then 0
       else s.target_time_between_send_ + 1 / 10)
    else s.target_time_between_send_
  let is_local_paused := i.key_SPACE_down
  let timer := if i.key_SPACE_triggered then 0 else s.send_timer_secs_
  let local_control := E.Update s.local_control_ (if !is_local_paused then system_dt else 0)
  let remote_control :=
    E.Update s.remote_control_ (if !s.is_remote_paused_ then system_dt else 0)
  { s with
    target_time_between_send_ := target
    send_timer_secs_ := timer
    local_control_ := local_control
    remote_control_ := remote_control
    local_player_ :=
      s.local_player_.SetPosition (E.GetCurrentX local_control) (E.GetCurrentY local_control)
    remote_player_ :=
      s.remote_player_.SetPosition (E.GetCurrentX remote_control)
        (E.GetCurrentY remote_control) }

/-- The reads of the receive block (lines 75-95), in source order, against the frame
number last accepted. -/
def ReadMessage (remote_frame : Nat) (p : Packet) : HostRead × Packet :=
  let (received_frame, p) := PacketSerializer.ReadValue_u_long p
  if received_frame > remote_frame then
    let (is_paused, p) := PacketSerializer.ReadValue_bool p
    let (is_client_attacking, p) := PacketSerializer.ReadValue_bool p
    if is_client_attacking then
      let (attack_x, p) := PacketSerializer.ReadValue_float p
      let (attack_y, p) := PacketSerializer.ReadValue_float p
      let (base_attack_frame, p) := PacketSerializer.ReadValue_u_long p
      let (target_attack_frame, p) := PacketSerializer.ReadValue_u_long p
      let (attack_t, p) := PacketSerializer.ReadValue_float p
      (HostRead.attack received_frame is_paused attack_x attack_y base_attack_frame
        target_attack_frame attack_t, p)
    else (HostRead.control received_frame is_paused, p)
  else (HostRead.stale received_frame, p)

/-- The search `std::find_if(local_state_history_.begin(), local_state_history_.end(),
record.frame == frame)` of lines 97-98; `none` is the `end()` iterator. -/
def FindRecord (history : List (ControlStateRecord E.ControlState)) (frame : Nat) :
    Option (ControlStateRecord E.ControlState) :=
  history.find? (fun record => record.frame == frame)

/-- Lines 71-125 of `Update`: the receive block. -/
def Receive (s : HostState E) (received : Option (List Field)) :
    HostState E × Option HostDiagnostic :=
  let s := { s with packet_ := s.packet_.Reset }
  match received with
  | none => (s, none)
  | some fields =>
    let (read, p) := ReadMessage s.remote_frame_ (s.packet_.Fill fields)
    let s := { s with packet_ := p }
    match read with
    | HostRead.stale _ => (s, none)
    | HostRead.control received_frame is_paused =>
      ({ s with remote_frame_ := received_frame, is_remote_paused_ := is_paused }, none)
    | HostRead.attack received_frame is_paused attack_x attack_y base_attack_frame
        target_attack_frame attack_t =>
      let s := { s with remote_frame_ := received_frame, is_remote_paused_ := is_paused }
      match FindRecord s.local_state_history_ base_attack_frame,
            FindRecord s.local_state_history_ target_attack_frame with
      | none, _ => (s, some (HostDiagnostic.base_not_found base_attack_frame))
      | some _, none =>
        (s, some (HostDiagnostic.target_not_found base_attack_frame target_attack_frame))
      | some _, some _ =>
        -- "just use whatever the host has now"
        let target_x := E.GetCurrentX s.local_control_
        let target_y := E.GetCurrentY s.local_control_
        let client_attack :=
          s.client_attack_.Set attack_x attack_y target_x target_y
            ⟨base_attack_frame, target_attack_frame, attack_t⟩
        ({ s with
           client_attack_ := client_attack
           is_client_attack_queued_ := true
           local_hit_timer_secs_ :=
             if client_attack.IsTargetHit then kDrawLocalHit_Secs else 0 }, none)

/-- The loop `while (size() > kLocalStateHistorySize) pop_front()` of lines 154-157. -/
def PopWhileOver {α : Type} (capacity : Nat) : List α → List α
  | [] => []
  | x :: xs => if (x :: xs).length > capacity then PopWhileOver capacity xs else x :: xs

/-- Lines 127-158 of `Update`: the send block. -/
def Send (s : HostState E) : HostState E × Option (List Field) :=
  let s := { s with send_timer_secs_ := s.send_timer_secs_ - system_dt }
  if s.send_timer_secs_ < 0 then
    let local_frame := (s.local_frame_ + 1) % kFrameModulus
    let p := s.packet_.Reset
    let p := PacketSerializer.WriteValue_u_long p local_frame
    -- CONVENTION: host writes its own values first
    let p := PacketSerializer.WriteValue_float p (E.GetCurrentX s.local_control_)
    let p := PacketSerializer.WriteValue_float p (E.GetCurrentY s.local_control_)
    let p := PacketSerializer.WriteValue_float p (E.GetCurrentVelocityX s.local_control_)
    let p := PacketSerializer.WriteValue_float p (E.GetCurrentVelocityY s.local_control_)
    let p := PacketSerializer.WriteValue_float p (E.GetCurrentX s.remote_control_)
    let p := PacketSerializer.WriteValue_float p (E.GetCurrentY s.remote_control_)
    let p := PacketSerializer.WriteValue_float p (E.GetCurrentVelocityX s.remote_control_)
    let p := PacketSerializer.WriteValue_float p (E.GetCurrentVelocityY s.remote_control_)
    let p := PacketSerializer.WriteValue_bool p s.is_client_attack_queued_
    let p :=
      if s.is_client_attack_queued_ then
        let p := PacketSerializer.WriteValue_float p s.client_attack_.GetAttackX
        let p := PacketSerializer.WriteValue_float p s.client_attack_.GetAttackY
        let p := PacketSerializer.WriteValue_float p s.client_attack_.GetTargetX
        PacketSerializer.WriteValue_float p s.client_attack_.GetTargetY
      else p
    ({ s with
       local_frame_ := local_frame
       packet_ := p
       is_client_attack_queued_ := false
       send_timer_secs_ := s.target_time_between_send_
       local_state_history_ :=
         PopWhileOver kLocalStateHistorySize
           (s.local_state_history_ ++
             [{ frame := local_frame
                state := E.GetState s.local_control_
                snapshot :=
                  ⟨E.GetCurrentX s.local_control_, E.GetCurrentY s.local_control_,
                   s.target_time_between_send_⟩ }]) },
     some p.Sent)
  else (s, none)

/-- The method `OptimisticHostScenarioState::Update` (lines 44-159). -/
def Update (s : HostState E) (i : HostInput) : HostState E × HostOutput :=
  let s := s.Advance i
  let (s, printed) := s.Receive i.received
  let (s, sent) := s.Send
  (s, { sent := sent, printed := printed })

/-- The state after a sequence of ticks. -/
def Run (s : HostState E) : List HostInput → HostState E
  | [] => s
  | i :: rest => Run (s.Update i).1 rest

/-- The messages passed to `send` during a sequence of ticks, oldest first. -/
def Sent (s : HostState E) : List HostInput → List (List Field)
  | [] => []
  | i :: rest =>
    match (s.Update i).2.sent with
    | some msg => msg :: Sent (s.Update i).1 rest
    | none => Sent (s.Update i).1 rest

/-- The frame numbers held by the history, oldest first. -/
def Frames (s : HostState E) : List Nat := s.local_state_history_.map (fun record => record.frame)

/-- The frame numbers of the messages sent during a sequence of ticks, oldest first. -/
def SentFrames (s : HostState E) (ins : List HostInput) : List Nat := (s.Sent ins).map frameOf

end HostState

/-! ## The client (OptimisticClientScenarioState.cpp) -/

/-- Constant `kTimeBetweenClientSend_Secs = 0.1f`. -/
def kTimeBetweenClientSend_Secs : ℚ := 1 / 10

/-- Constant `kDrawRemoteHit_Secs = 2.0f`. -/
def kDrawRemoteHit_Secs : ℚ := 2

/-- The methods every replication control offers to the client's `Update`. -/
structure ReplicationControl (C : Type) where
  Update : C → ℚ → C
  GetCurrentX : C → ℚ
  GetCurrentY : C → ℚ
  GetSyncRatio : C → SyncRatio

/-- The three replication control classes are declared outside the sources at hand; the
client code is embedded over any implementation of the methods it calls.  `simple`, `dr`
and `snapshot` are the classes of `simple_*_control_`, `dr_*_control_` and
`snapshot_*_control_`. -/
structure ClientEnv where
  Simple : Type
  DeadReckoning : Type
  SnapshotBuffer : Type
  simple : ReplicationControl Simple
  dr : ReplicationControl DeadReckoning
  snapshot : ReplicationControl SnapshotBuffer
  /-- Default-constructed controls -/
  simple_default : Simple
  dr_default : DeadReckoning
  snapshot_default : SnapshotBuffer
  /-- Method `SetLastKnown(x, y, frame)` -/
  simple_SetLastKnown : Simple → ℚ → ℚ → Nat → Simple
  /-- Method `SetLastKnown(x, y, velocity_x, velocity_y, time_since_last_recv, frame)` -/
  dr_SetLastKnown : DeadReckoning → ℚ → ℚ → ℚ → ℚ → ℚ → Nat → DeadReckoning
  /-- Method `AddSnapshot({ x, y, time_since_last_recv }, frame)` -/
  snapshot_AddSnapshot : SnapshotBuffer → Snapshot → Nat → SnapshotBuffer

/-- The enumeration `OptimisticClientScenarioState::Active_Control`. -/
inductive Active_Control where
  | Simple
  | Dead_Reckoning
  | Snapshot
deriving DecidableEq, Repr

/-- Members of `OptimisticClientScenarioState`. -/
structure ClientState (E : ClientEnv) where
  active_control_ : Active_Control
  is_drawing_controls_ : Bool
  is_attack_queued_ : Bool
  remote_hit_timer_secs_ : ℚ
  local_frame_ : Nat
  remote_frame_ : Nat
  send_timer_secs_ : ℚ
  time_since_last_recv_ : ℚ
  packet_ : Packet
  simple_local_control_ : E.Simple
  simple_remote_control_ : E.Simple
  snapshot_local_control_ : E.SnapshotBuffer
  snapshot_remote_control_ : E.SnapshotBuffer
  dr_local_control_ : E.DeadReckoning
  dr_remote_control_ : E.DeadReckoning
  local_player_ : Player
  remote_player_ : Player
  local_attack_ : Attack
  remote_confirmed_attack_ : Attack

/-- What one client tick observes from outside. -/
structure ClientInput where
  /-- Result of `CP_Input_KeyDown(KEY_SPACE)` -/
  key_SPACE_down : Bool
  /-- Result of `CP_Input_KeyTriggered(KEY_D)` -/
  key_D_triggered : Bool
  /-- Result of `CP_Input_KeyTriggered(KEY_A)` -/
  key_A_triggered : Bool
  /-- Result of `CP_Input_KeyTriggered(KEY_F)` -/
  key_F_triggered : Bool
  /-- Result of `recv`: `some fields` when it returned `res > 0`, `none` otherwise -/
  received : Option (List Field)
deriving DecidableEq, Repr

/-- The values the client's receive block reads out of the packet (lines 124-151): only
the frame number for a message that is not newer, else the eight floats and
`is_client_attacking`, then the four confirmed-attack floats when it is set. -/
inductive ClientRead where
  | stale (received_frame : Nat)
  | update (received_frame : Nat)
      (host_x host_y host_velocity_x host_velocity_y : ℚ)
      (non_host_x non_host_y non_host_velocity_x non_host_velocity_y : ℚ)
  | confirmed (received_frame : Nat)
      (host_x host_y host_velocity_x host_velocity_y : ℚ)
      (non_host_x non_host_y non_host_velocity_x non_host_velocity_y : ℚ)
      (client_attack_x client_attack_y target_x target_y : ℚ)
deriving DecidableEq, Repr

/-- The locals `local_x, local_y, remote_x, remote_y, current_sync` of the client's
`Update` after the `switch` of lines 86-109. -/
structure ClientView where
  local_x : ℚ
  local_y : ℚ
  remote_x : ℚ
  remote_y : ℚ
  current_sync : SyncRatio
deriving DecidableEq, Repr

namespace ClientState

variable {E : ClientEnv}

/-- The constructor `OptimisticClientScenarioState(socket)` (lines 22-42). -/
def Create (E : ClientEnv) : ClientState E where
  active_control_ := Active_Control.Simple
  is_drawing_controls_ := false
  is_attack_queued_ := false
  remote_hit_timer_secs_ := 0
  local_frame_ := 0
  remote_frame_ := 0
  send_timer_secs_ := 0
  time_since_last_recv_ := 0
  packet_ := {}
  simple_local_control_ := E.simple_default
  simple_remote_control_ := E.simple_default
  snapshot_local_control_ := E.snapshot_default
  snapshot_remote_control_ := E.snapshot_default
  dr_local_control_ := E.dr_default
  dr_remote_control_ := E.dr_default
  local_player_ := { color := CP_Color_Create 255 0 0 255 }
  remote_player_ := { color := CP_Color_Create 0 0 255 255 }
  local_attack_ :=
    (((({} : Attack).SetAttackColor (CP_Color_Create 0 200 0 0)).SetTargetColor
      (CP_Color_Create 255 0 255 0)).SetTargetSize 30)
  remote_confirmed_attack_ :=
    (((({} : Attack).SetAttackColor (CP_Color_Create 0 0 0 0)).SetTargetColor
      (CP_Color_Create 255 255 255 0)).SetTargetSize 25)

/-- The `switch (active_control_)` of lines 86-109. -/
def View (s : ClientState E) : ClientView :=
  match s.active_control_ with
  | Active_Control.Dead_Reckoning =>
    { local_x := E.dr.GetCurrentX s.dr_local_control_
      local_y := E.dr.GetCurrentY s.dr_local_control_
      remote_x := E.dr.GetCurrentX s.dr_remote_control_
      remote_y := E.dr.GetCurrentY s.dr_remote_control_
      current_sync := E.dr.GetSyncRatio s.dr_local_control_ }
  | Active_Control.Snapshot =>
    { local_x := E.snapshot.GetCurrentX s.snapshot_local_control_
      local_y := E.snapshot.GetCurrentY s.snapshot_local_control_
      remote_x := E.snapshot.GetCurrentX s.snapshot_remote_control_
      remote_y := E.snapshot.GetCurrentY s.snapshot_remote_control_
      current_sync := E.snapshot.GetSyncRatio s.snapshot_local_control_ }
  | Active_Control.Simple =>
    { local_x := E.simple.GetCurrentX s.simple_local_control_
      local_y := E.simple.GetCurrentY s.simple_local_control_
      remote_x := E.simple.GetCurrentX s.simple_remote_control_
      remote_y := E.simple.GetCurrentY s.simple_remote_control_
      current_sync := E.simple.GetSyncRatio s.simple_local_control_ }

/-- Lines 52-111 of `Update`: keys D and A, advancing the six controls, positioning the
players from the active pair. -/
def Prepare (s : ClientState E) (i : ClientInput) : ClientState E :=
  let s := if i.key_D_triggered then { s with is_drawing_controls_ := !s.is_drawing_controls_ }
           else s
  let s :=
    if i.key_A_triggered then
      { s with
        active_control_ :=
          match s.active_control_ with
          | Active_Control.Simple => Active_Control.Dead_Reckoning
          | Active_Control.Dead_Reckoning => Active_Control.Snapshot
          | Active_Control.Snapshot => Active_Control.Simple }
    else s
  let s :=
    { s with
      simple_local_control_ := E.simple.Update s.simple_local_control_ system_dt
      simple_remote_control_ := E.simple.Update s.simple_remote_control_ system_dt
      snapshot_local_control_ := E.snapshot.Update s.snapshot_local_control_ system_dt
      snapshot_remote_control_ := E.snapshot.Update s.snapshot_remote_control_ system_dt
      dr_local_control_ := E.dr.Update s.dr_local_control_ system_dt
      dr_remote_control_ := E.dr.Update s.dr_remote_control_ system_dt }
  let v := s.View
  { s with
    local_player_ := s.local_player_.SetPosition v.local_x v.local_y
    remote_player_ := s.remote_player_.SetPosition v.remote_x v.remote_y }

/-- Lines 52-117 of `Update`: `Prepare`, then the attack trigger on key F (lines 113-117)
with the locals `local_x, local_y, remote_x, remote_y, current_sync` of the `switch`. -/
def Advance (s : ClientState E) (i : ClientInput) : ClientState E :=
  let s := s.Prepare i
  let v := s.View
  if i.key_F_triggered then
    { s with
      is_attack_queued_ := true
      local_attack_ := s.local_attack_.Set v.local_x v.local_y v.remote_x v.remote_y
        v.current_sync }
  else s

/-- The reads of the receive block (lines 124-151), in source order, against the frame
number last accepted. -/
def ReadMessage (remote_frame : Nat) (p : Packet) : ClientRead × Packet :=
  let (received_frame, p) := PacketSerializer.ReadValue_u_long p
  if received_frame > remote_frame then
    -- CONVENTION: host writes its own values first
    let (host_x, p) := PacketSerializer.ReadValue_float p
    let (host_y, p) := PacketSerializer.ReadValue_float p
    let (host_velocity_x, p) := PacketSerializer.ReadValue_float p
    let (host_velocity_y, p) := PacketSerializer.ReadValue_float p
    let (non_host_x, p) := PacketSerializer.ReadValue_float p
    let (non_host_y, p) := PacketSerializer.ReadValue_float p
    let (non_host_velocity_x, p) := PacketSerializer.ReadValue_float p
    let (non_host_velocity_y, p) := PacketSerializer.ReadValue_float p
    let (is_client_attacking, p) := PacketSerializer.ReadValue_bool p
    if is_client_attacking then
      let (client_attack_x, p) := PacketSerializer.ReadValue_float p
      let (client_attack_y, p) := PacketSerializer.ReadValue_float p
      let (target_x, p) := PacketSerializer.ReadValue_float p
      let (target_y, p) := PacketSerializer.ReadValue_float p
      (ClientRead.confirmed received_frame host_x host_y host_velocity_x host_velocity_y
        non_host_x non_host_y non_host_velocity_x non_host_velocity_y
        client_attack_x client_attack_y target_x target_y, p)
    else
      (ClientRead.update received_frame host_x host_y host_velocity_x host_velocity_y
        non_host_x non_host_y non_host_velocity_x non_host_velocity_y, p)
  else (ClientRead.stale received_frame, p)

/-- Lines 155-161 of `Update`: "store the data in all of the controls". -/
def StoreInControls (s : ClientState E)
    (host_x host_y host_velocity_x host_velocity_y : ℚ)
    (non_host_x non_host_y non_host_velocity_x non_host_velocity_y : ℚ) : ClientState E :=
  { s with
    simple_local_control_ :=
      E.simple_SetLastKnown s.simple_local_control_ non_host_x non_host_y s.remote_frame_
    simple_remote_control_ :=
      E.simple_SetLastKnown s.simple_remote_control_ host_x host_y s.remote_frame_
    dr_local_control_ :=
      E.dr_SetLastKnown s.dr_local_control_ non_host_x non_host_y non_host_velocity_x
        non_host_velocity_y s.time_since_last_recv_ s.remote_frame_
    dr_remote_control_ :=
      E.dr_SetLastKnown s.dr_remote_control_ host_x host_y host_velocity_x host_velocity_y
        s.time_since_last_recv_ s.remote_frame_
    snapshot_local_control_ :=
      E.snapshot_AddSnapshot s.snapshot_local_control_
        ⟨non_host_x, non_host_y, s.time_since_last_recv_⟩ s.remote_frame_
    snapshot_remote_control_ :=
      E.snapshot_AddSnapshot s.snapshot_remote_control_
        ⟨host_x, host_y, s.time_since_last_recv_⟩ s.remote_frame_ }

/-- Lines 119-164 of `Update`: the receive block. -/
def Receive (s : ClientState E) (received : Option (List Field)) : ClientState E :=
  let s :=
    { s with
      time_since_last_recv_ := s.time_since_last_recv_ + system_dt
      packet_ := s.packet_.Reset }
  match received with
  | none => s
  | some fields =>
    let (read, p) := ReadMessage s.remote_frame_ (s.packet_.Fill fields)
    let s := { s with packet_ := p }
    let s :=
      match read with
      | ClientRead.stale _ => s
      | ClientRead.update received_frame host_x host_y host_velocity_x host_velocity_y
          non_host_x non_host_y non_host_velocity_x non_host_velocity_y =>
        let s := { s with remote_frame_ := received_frame }
        s.StoreInControls host_x host_y host_velocity_x host_velocity_y
          non_host_x non_host_y non_host_velocity_x non_host_velocity_y
      | ClientRead.confirmed received_frame host_x host_y host_velocity_x host_velocity_y
          non_host_x non_host_y non_host_velocity_x non_host_velocity_y
          client_attack_x client_attack_y target_x target_y =>
        let s := { s with remote_frame_ := received_frame }
        let confirmed :=
          s.remote_confirmed_attack_.Set client_attack_x client_attack_y target_x target_y
            SyncRatio.zero
        let s :=
          { s with
            remote_confirmed_attack_ := confirmed
            remote_hit_timer_secs_ :=
              if confirmed.IsTargetHit then kDrawRemoteHit_Secs else 0 }
        s.StoreInControls host_x host_y host_velocity_x host_velocity_y
          non_host_x non_host_y non_host_velocity_x non_host_velocity_y
    { s with time_since_last_recv_ := 0 }

/-- Lines 166-185 of `Update`: the send block. -/
def Send (s : ClientState E) (is_local_paused : Bool) : ClientState E × Option (List Field) :=
  let s := { s with send_timer_secs_ := s.send_timer_secs_ - system_dt }
  if s.send_timer_secs_ < 0 then
    let local_frame := (s.local_frame_ + 1) % kFrameModulus
    let p := s.packet_.Reset
    let p := PacketSerializer.WriteValue_u_long p local_frame
    let p := PacketSerializer.WriteValue_bool p is_local_paused
    let p := PacketSerializer.WriteValue_bool p s.is_attack_queued_
    let p :=
      if s.is_attack_queued_ then
        -- use the stored sync, not the current one!
        let attack_sync := s.local_attack_.GetSyncRatio
        let p := PacketSerializer.WriteValue_float p s.local_attack_.GetAttackX
        let p := PacketSerializer.WriteValue_float p s.local_attack_.GetAttackY
        let p := PacketSerializer.WriteValue_u_long p attack_sync.base_frame
        let p := PacketSerializer.WriteValue_u_long p attack_sync.target_frame
        PacketSerializer.WriteValue_float p attack_sync.t
      else p
    ({ s with
       local_frame_ := local_frame
       packet_ := p
       is_attack_queued_ := false
       send_timer_secs_ := kTimeBetweenClientSend_Secs },
     some p.Sent)
  else (s, none)

/-- The method `OptimisticClientScenarioState::Update` (lines 48-186). -/
def Update (s : ClientState E) (i : ClientInput) : ClientState E × Option (List Field) :=
  let is_local_paused := i.key_SPACE_down
  let s := s.Advance i
  let s := s.Receive i.received
  s.Send is_local_paused

/-- The method `OptimisticClientScenarioState::Draw` (lines 189-243), with
`dt = CP_System_GetDt()`: both attacks fade, the hit timer runs down and selects the
colour of the remote player. -/
def Draw (s : ClientState E) (dt : ℚ) : ClientState E :=
  let s :=
    { s with
      local_attack_ := s.local_attack_.Draw true true
      remote_confirmed_attack_ := s.remote_confirmed_attack_.Draw false true }
  if s.remote_hit_timer_secs_ > 0 then
    { s with
      remote_player_ := { s.remote_player_ with color := CP_Color_Create 0 255 255 255 }
      remote_hit_timer_secs_ := s.remote_hit_timer_secs_ - dt }
  else
    { s with
      remote_player_ := { s.remote_player_ with color := CP_Color_Create 0 0 255 255 } }

end ClientState

/-- One call the scenario manager makes on the client: `Update()` or `Draw()`. -/
inductive ClientEvent where
  | update (i : ClientInput)
  | draw (dt : ℚ)
deriving DecidableEq, Repr

namespace ClientState

variable {E : ClientEnv}

/-- One call on the client and the message it passes to `send`, if any. -/
def Step (s : ClientState E) : ClientEvent → ClientState E × Option (List Field)
  | ClientEvent.update i => s.Update i
  | ClientEvent.draw dt => (s.Draw dt, none)

/-- The state after a sequence of calls. -/
def Run (s : ClientState E) : List ClientEvent → ClientState E
  | [] => s
  | e :: rest => Run (s.Step e).1 rest

/-- The messages passed to `send` during a sequence of calls, oldest first. -/
def Sent (s : ClientState E) : List ClientEvent → List (List Field)
  | [] => []
  | e :: rest =>
    match (s.Step e).2 with
    | some msg => msg :: Sent (s.Step e).1 rest
    | none => Sent (s.Step e).1 rest

/-- The frame numbers of the messages sent during a sequence of calls, oldest first. -/
def SentFrames (s : ClientState E) (events : List ClientEvent) : List Nat :=
  (s.Sent events).map frameOf

end ClientState

/-- Whether a call on the client is an `Update` on which the attack key F is triggered. -/
def ClientEvent.triggers : ClientEvent → Bool
  | ClientEvent.update i => i.key_F_triggered
  | ClientEvent.draw _ => false

/-! ## The sync ratio of a replication control -/

/-- A point moving with constant velocity: an instance of the `DoubleOrbitControl`
interface on which the host code can be run. -/
structure ExampleControl where
  x : ℚ
  y : ℚ
  vx : ℚ
  vy : ℚ
deriving DecidableEq, Repr

/-- The host environment built on `ExampleControl`. -/
def exampleHostEnv : HostEnv where
  DoubleOrbitControl := ExampleControl
  ControlState := ExampleControl
  Create := fun x y _radius _speed => ⟨x, y, 0, 0⟩
  Update := fun c dt => { c with x := c.x + c.vx * dt, y := c.y + c.vy * dt }
  GetCurrentX := fun c => c.x
  GetCurrentY := fun c => c.y
  GetCurrentVelocityX := fun c => c.vx
  GetCurrentVelocityY := fun c => c.vy
  GetState := fun c => c

/-- A call made on a replication control. -/
inductive ControlCall where
  | Update (dt : ℚ)
  | SetLastKnown (x y : ℚ) (frame : Nat)
  | SetLastKnownVelocity (x y velocity_x velocity_y time_since_last_recv : ℚ) (frame : Nat)
  | AddSnapshot (snapshot : Snapshot) (frame : Nat)
deriving DecidableEq, Repr

/-- The position and frame of the most recent fact in a call log (newest call first). -/
def lastKnown : List ControlCall → ℚ × ℚ × Nat
  | [] => (0, 0, 0)
  | ControlCall.Update _ :: rest => lastKnown rest
  | ControlCall.SetLastKnown x y frame :: _ => (x, y, frame)
  | ControlCall.SetLastKnownVelocity x y _ _ _ frame :: _ => (x, y, frame)
  | ControlCall.AddSnapshot snapshot frame :: _ => (snapshot.x, snapshot.y, frame)

/-- A replication control that keeps the log of the calls made on it (newest first), shows
the last position it was given and reports the frame of that fact as its sync ratio: an
instance of the control interface on which the client code can be run. -/
def recordingControl : ReplicationControl (List ControlCall) where
  Update := fun c dt => ControlCall.Update dt :: c
  GetCurrentX := fun c => (lastKnown c).1
  GetCurrentY := fun c => (lastKnown c).2.1
  GetSyncRatio := fun c => ⟨(lastKnown c).2.2, (lastKnown c).2.2, 0⟩

/-- The client environment in which all three control classes are `recordingControl`. -/
def exampleClientEnv : ClientEnv where
  Simple := List ControlCall
  DeadReckoning := List ControlCall
  SnapshotBuffer := List ControlCall
  simple := recordingControl
  dr := recordingControl
  snapshot := recordingControl
  simple_default := []
  dr_default := []
  snapshot_default := []
  simple_SetLastKnown := fun c x y frame => ControlCall.SetLastKnown x y frame :: c
  dr_SetLastKnown := fun c x y vx vy t frame =>
    ControlCall.SetLastKnownVelocity x y vx vy t frame :: c
  snapshot_AddSnapshot := fun c snapshot frame => ControlCall.AddSnapshot snapshot frame :: c

/-- A host tick with no key pressed and nothing received. -/
def HostInput.idle : HostInput :=
  { key_W_triggered := false, key_SPACE_down := false, key_SPACE_triggered := false,
    received := none }

/-- A client tick with no key pressed and nothing received. -/
def ClientInput.idle : ClientInput :=
  { key_SPACE_down := false, key_D_triggered := false, key_A_triggered := false,
    key_F_triggered := false, received := none }

/-! ### The scenario of the specification: records at frames 10 and 12 -/

/-- A history record of the example host at a frame and position. -/
def exampleRecord (frame : Nat) (x y : ℚ) : ControlStateRecord ExampleControl :=
  { frame := frame, state := ⟨x, y, 0, 0⟩, snapshot := ⟨x, y, 0⟩ }

/-- The host after it recorded frame 10 at (100,100) and frame 12 at (200,100), its own
entity standing at (500,500) by now; nothing accepted from the client yet, next send not
due. -/
def scenarioHost : HostState exampleHostEnv :=
  { HostState.Create exampleHostEnv with
    local_control_ := ⟨500, 500, 0, 0⟩
    local_frame_ := 12
    send_timer_secs_ := 1
    local_state_history_ := [exampleRecord 10 100 100, exampleRecord 12 200 100] }

/-- The client message: frame 1, attack at (150,100), sync ratio `{ base, target, t }`. -/
def scenarioAttackMessage (base_frame target_frame : Nat) (t : ℚ) : List Field :=
  [Field.u32 1, Field.bool false, Field.bool true, Field.f32 150, Field.f32 100,
   Field.u32 base_frame, Field.u32 target_frame, Field.f32 t]

/-- A client message numbered 0 that asks for a pause and carries an attack. -/
def staleAttackMessage : List Field :=
  [Field.u32 0, Field.bool true, Field.bool true, Field.f32 150, Field.f32 100,
   Field.u32 10, Field.u32 12, Field.f32 1]

/-- The Client->Host message without attack: frame number, `is_paused`, `is_attacking`. -/
def controlMessage (frame : Nat) (is_paused : Bool) : List Field :=
  [Field.u32 frame, Field.bool is_paused, Field.bool false]

/-- The Client->Host message with an attack: the three fields above with `is_attacking`
set, then attack position and sync ratio. -/
def attackMessage (frame : Nat) (is_paused : Bool) (attack_x attack_y : ℚ)
    (attack_sync : SyncRatio) : List Field :=
  [Field.u32 frame, Field.bool is_paused, Field.bool true, Field.f32 attack_x,
   Field.f32 attack_y, Field.u32 attack_sync.base_frame, Field.u32 attack_sync.target_frame,
   Field.f32 attack_sync.t]

/-- A Host->Client message with the given frame number, host entity at (300,400) moving
with velocity (3,4), client entity at (10,20) with velocity (5,6), no confirmed attack. -/
def hostMessage (frame : Nat) : List Field :=
  [Field.u32 frame, Field.f32 300, Field.f32 400, Field.f32 3, Field.f32 4,
   Field.f32 10, Field.f32 20, Field.f32 5, Field.f32 6, Field.bool false]

/-- The scenario host at a tick on which its send is due. -/
def scenarioHostDue : HostState exampleHostEnv := { scenarioHost with send_timer_secs_ := 0 }

/-- A client tick on which only the attack key F is triggered. -/
def ClientInput.attack : ClientInput := { ClientInput.idle with key_F_triggered := true }

/-- A client with the given active control whose six controls hold different facts: those
of the client entity know frame 5 at (10,20), those of the host entity know frame 7 at
(300,400). -/
def skewedClient (active : Active_Control) : ClientState exampleClientEnv :=
  { ClientState.Create exampleClientEnv with
    active_control_ := active
    simple_local_control_ := [ControlCall.SetLastKnown 10 20 5]
    simple_remote_control_ := [ControlCall.SetLastKnown 300 400 7]
    dr_local_control_ := [ControlCall.SetLastKnownVelocity 10 20 0 0 0 5]
    dr_remote_control_ := [ControlCall.SetLastKnownVelocity 300 400 0 0 0 7]
    snapshot_local_control_ := [ControlCall.AddSnapshot ⟨10, 20, 0⟩ 5]
    snapshot_remote_control_ := [ControlCall.AddSnapshot ⟨300, 400, 0⟩ 7] }

/-- A client on which an attack was triggered and whose send is due: the client of
`skewedClient` under the simple setting after the first part of a tick with key F. -/
def queuedClient : ClientState exampleClientEnv :=
  (skewedClient Active_Control.Simple).Advance ClientInput.attack

/-- A Host->Client message numbered 1 without confirmed attack: host entity at (300,400),
client entity at (10,20), with the given velocities. -/
def hostMessageVelocity (host_vx host_vy client_vx client_vy : ℚ) : List Field :=
  [Field.u32 1, Field.f32 300, Field.f32 400, Field.f32 host_vx, Field.f32 host_vy,
   Field.f32 10, Field.f32 20, Field.f32 client_vx, Field.f32 client_vy, Field.bool false]

/-- The constructed example host with its entity at (300,400) moving with velocity (3,4),
the client entity at (10,20) moving with velocity (5,6); its send is due. -/
def movingHost : HostState exampleHostEnv :=
  { HostState.Create exampleHostEnv with
    local_control_ := ⟨300, 400, 3, 4⟩
    remote_control_ := ⟨10, 20, 5, 6⟩ }

/-- The client of `skewedClient` under the simple setting after its first message: frame
counter 1, next send due in 0.1 s. -/
def armedClient : ClientState exampleClientEnv :=
  { skewedClient Active_Control.Simple with send_timer_secs_ := 1 / 10, local_frame_ := 1 }

/-- Calls that follow an attack trigger without touching the attack key: an `Update` that
switches the active control and accepts a host message, a `Draw`, six idle `Update`s. -/
def quietEvents : List ClientEvent :=
  [ClientEvent.update
     { ClientInput.idle with key_A_triggered := true, received := some (hostMessage 1) },
   ClientEvent.draw (1 / 30),
   ClientEvent.update ClientInput.idle, ClientEvent.update ClientInput.idle,
   ClientEvent.update ClientInput.idle, ClientEvent.update ClientInput.idle,
   ClientEvent.update ClientInput.idle, ClientEvent.update ClientInput.idle]

/-- The linear blend `base + t * (target - base)` of the specification. -/
def blend (base target t : ℚ) : ℚ := base + t * (target - base)

end RewindLab

namespace RewindLab

open PacketSerializer

/-! ## Properties of the host's phases -/

namespace HostState

variable {E : HostEnv}

theorem Receive_cases (s : HostState E) (received : Option (List Field)) :
    (∃ p, s.Receive received = ({ s with packet_ := p }, none)) ∨
    (∃ p f b, s.Receive received =
        ({ s with packet_ := p, remote_frame_ := f, is_remote_paused_ := b }, none)) ∨
    (∃ p f b d, s.Receive received =
        ({ s with packet_ := p, remote_frame_ := f, is_remote_paused_ := b }, some d)) ∨
    (∃ p f b a t, s.Receive received =
        ({ s with packet_ := p, remote_frame_ := f, is_remote_paused_ := b,
                  client_attack_ := a, is_client_attack_queued_ := true,
                  local_hit_timer_secs_ := t }, none)) := by
  cases received with
  | none => exact Or.inl ⟨_, rfl⟩
  | some fields =>
    unfold Receive
    rcases h : ReadMessage s.remote_frame_ (s.packet_.Reset.Fill fields) with ⟨read, p⟩
    cases read with
    | stale f => exact Or.inl ⟨p, by simp [h]⟩
    | control f b => exact Or.inr (Or.inl ⟨p, f, b, by simp [h]⟩)
    | attack f b ax ay bf tf t =>
      simp only [h]
      cases hb : FindRecord s.local_state_history_ bf with
      | none =>
        exact Or.inr (Or.inr (Or.inl ⟨p, f, b, HostDiagnostic.base_not_found bf, by simp [hb]⟩))
      | some rb =>
        cases ht : FindRecord s.local_state_history_ tf with
        | none =>
          exact Or.inr (Or.inr (Or.inl
            ⟨p, f, b, HostDiagnostic.target_not_found bf tf, by simp [hb, ht]⟩))
        | some rt => exact Or.inr (Or.inr (Or.inr ⟨p, f, b, _, _, rfl⟩))

theorem PopWhileOver_eq_drop {α : Type} (capacity : Nat) (l : List α) :
    PopWhileOver capacity l = l.drop (l.length - capacity) := by
  induction l with
  | nil => simp [PopWhileOver]
  | cons x xs ih =>
    unfold PopWhileOver
    by_cases h : (x :: xs).length > capacity
    · rw [if_pos h, ih]
      have h1 : xs.length + 1 > capacity := by simpa using h
      have h2 : (x :: xs).length - capacity = (xs.length - capacity) + 1 := by
        simp only [List.length_cons]; omega
      rw [h2, List.drop_succ_cons]
    · rw [if_neg h]
      have h2 : (x :: xs).length - capacity = 0 := by
        simp only [List.length_cons] at h ⊢; omega
      rw [h2, List.drop_zero]

/-- The message written by the send block, as a list of fields. -/
theorem Send_fields (s : HostState E) (msg : List Field) (h : s.Send.2 = some msg) :
    msg =
      [Field.u32 ((s.local_frame_ + 1) % kFrameModulus),
       Field.f32 (E.GetCurrentX s.local_control_), Field.f32 (E.GetCurrentY s.local_control_),
       Field.f32 (E.GetCurrentVelocityX s.local_control_),
       Field.f32 (E.GetCurrentVelocityY s.local_control_),
       Field.f32 (E.GetCurrentX s.remote_control_), Field.f32 (E.GetCurrentY s.remote_control_),
       Field.f32 (E.GetCurrentVelocityX s.remote_control_),
       Field.f32 (E.GetCurrentVelocityY s.remote_control_),
       Field.bool s.is_client_attack_queued_] ++
      (if s.is_client_attack_queued_ then
         [Field.f32 s.client_attack_.x_, Field.f32 s.client_attack_.y_,
          Field.f32 s.client_attack_.target_x_, Field.f32 s.client_attack_.target_y_]
       else []) := by
  unfold Send at h
  by_cases ht : s.send_timer_secs_ - system_dt < 0
  · simp only [ht, if_true, Option.some.injEq] at h
    rw [← h]
    cases hq : s.is_client_attack_queued_ <;>
      simp [Packet.Sent, Packet.Reset, WriteValue_u_long, WriteValue_float, WriteValue_bool,
        WriteField, Attack.GetAttackX, Attack.GetAttackY, Attack.GetTargetX, Attack.GetTargetY]
  · simp [ht] at h

theorem Update_fst (s : HostState E) (i : HostInput) :
    (s.Update i).1 = ((s.Advance i).Receive i.received).1.Send.1 := rfl

theorem Update_sent (s : HostState E) (i : HostInput) :
    (s.Update i).2.sent = ((s.Advance i).Receive i.received).1.Send.2 := rfl

theorem Update_printed (s : HostState E) (i : HostInput) :
    (s.Update i).2.printed = ((s.Advance i).Receive i.received).2 := rfl

/-- The receive block leaves the frame counter, the history, the timers and both controls
as they are. -/
theorem Receive_preserves (s : HostState E) (received : Option (List Field)) :
    (s.Receive received).1.local_frame_ = s.local_frame_ ∧
    (s.Receive received).1.local_state_history_ = s.local_state_history_ ∧
    (s.Receive received).1.send_timer_secs_ = s.send_timer_secs_ ∧
    (s.Receive received).1.target_time_between_send_ = s.target_time_between_send_ ∧
    (s.Receive received).1.local_control_ = s.local_control_ ∧
    (s.Receive received).1.remote_control_ = s.remote_control_ := by
  rcases Receive_cases s received with ⟨p, h⟩ | ⟨p, f, b, h⟩ | ⟨p, f, b, d, h⟩ |
    ⟨p, f, b, a, t, h⟩ <;> simp [h]

/-- A tick without a send leaves frame counter and history untouched. -/
theorem Send_none (s : HostState E) (h : s.Send.2 = none) :
    s.Send.1 = { s with send_timer_secs_ := s.send_timer_secs_ - system_dt } := by
  unfold Send at h ⊢
  by_cases ht : s.send_timer_secs_ - system_dt < 0
  · simp [ht] at h
  · simp [ht]

/-- A send is made exactly when the timer falls below zero. -/
theorem Send_isSome (s : HostState E) :
    s.Send.2.isSome = decide (s.send_timer_secs_ - system_dt < 0) := by
  unfold Send
  by_cases ht : s.send_timer_secs_ - system_dt < 0 <;> simp [ht]

/-- The state a sending tick leaves behind. -/
theorem Send_some (s : HostState E) (msg : List Field) (h : s.Send.2 = some msg) :
    s.Send.1.local_frame_ = (s.local_frame_ + 1) % kFrameModulus ∧
    s.Send.1.is_client_attack_queued_ = false ∧
    s.Send.1.send_timer_secs_ = s.target_time_between_send_ ∧
    s.Send.1.target_time_between_send_ = s.target_time_between_send_ ∧
    s.Send.1.local_state_history_ =
      PopWhileOver kLocalStateHistorySize
        (s.local_state_history_ ++
          [{ frame := (s.local_frame_ + 1) % kFrameModulus
             state := E.GetState s.local_control_
             snapshot :=
               ⟨E.GetCurrentX s.local_control_, E.GetCurrentY s.local_control_,
                s.target_time_between_send_⟩ }]) := by
  unfold Send at h ⊢
  by_cases ht : s.send_timer_secs_ - system_dt < 0
  · simp [ht]
  · simp [ht] at h

theorem FindRecord_isSome (history : List (ControlStateRecord E.ControlState)) (frame : Nat) :
    (FindRecord history frame).isSome = true ↔
      frame ∈ history.map (fun record => record.frame) := by
  unfold FindRecord
  rw [List.find?_isSome]
  simp only [List.mem_map, beq_iff_eq]

theorem FindRecord_none (history : List (ControlStateRecord E.ControlState)) (frame : Nat) :
    FindRecord history frame = none ↔
      frame ∉ history.map (fun record => record.frame) := by
  rw [← FindRecord_isSome]
  cases FindRecord history frame <;> simp

theorem Advance_preserves (s : HostState E) (i : HostInput) :
    (s.Advance i).local_frame_ = s.local_frame_ ∧
    (s.Advance i).local_state_history_ = s.local_state_history_ := ⟨rfl, rfl⟩

/-- One tick, seen from the frame counter and the history: either nothing is sent and
both stay, or the next frame number is sent and recorded. -/
theorem Update_step (s : HostState E) (i : HostInput) :
    ((s.Update i).2.sent = none ∧ (s.Update i).1.local_frame_ = s.local_frame_ ∧
      (s.Update i).1.local_state_history_ = s.local_state_history_) ∨
    (∃ msg, (s.Update i).2.sent = some msg ∧
      frameOf msg = (s.local_frame_ + 1) % kFrameModulus ∧
      (s.Update i).1.local_frame_ = (s.local_frame_ + 1) % kFrameModulus ∧
      (s.Update i).1.Frames =
        (s.Frames ++ [(s.local_frame_ + 1) % kFrameModulus]).drop
          ((s.Frames ++ [(s.local_frame_ + 1) % kFrameModulus]).length
            - kLocalStateHistorySize)) := by
  obtain ⟨hf, hh, -, -, -, -⟩ := Receive_preserves (s.Advance i) i.received
  rw [Update_fst, Update_sent]
  cases hs : ((s.Advance i).Receive i.received).1.Send.2 with
  | none =>
    left
    rw [Send_none _ hs]
    exact ⟨rfl, hf, hh⟩
  | some msg =>
    right
    obtain ⟨h1, -, -, -, h5⟩ := Send_some _ msg hs
    refine ⟨msg, rfl, ?_, ?_, ?_⟩
    · rw [Send_fields _ msg hs, hf]
      simp [frameOf, ReadValue_u_long, Advance]
    · rw [h1, hf]; rfl
    · unfold Frames
      rw [h5, PopWhileOver_eq_drop, hh, hf, List.map_drop]
      simp [Advance]

/-- Keeping the newest `c` entries twice is keeping them once. -/
theorem drop_append_drop {α : Type} (c : Nat) (a b : List α) :
    (a.drop (a.length - c) ++ b).drop ((a.drop (a.length - c) ++ b).length - c) =
      (a ++ b).drop ((a ++ b).length - c) := by
  have h0 : (a.drop (a.length - c) ++ b).length = a.length - (a.length - c) + b.length := by
    simp only [List.length_append, List.length_drop]
  have h1 : (a ++ b).length - c =
      (a.length - c) + ((a.drop (a.length - c) ++ b).length - c) := by
    rw [h0, List.length_append]; omega
  have h2 : (a ++ b).drop (a.length - c) = a.drop (a.length - c) ++ b :=
    List.drop_append_of_le_length (by omega)
  rw [h1, ← List.drop_drop, h2]

theorem Run_cons (s : HostState E) (i : HostInput) (rest : List HostInput) :
    s.Run (i :: rest) = (s.Update i).1.Run rest := rfl

theorem Sent_cons_none (s : HostState E) (i : HostInput) (rest : List HostInput)
    (h : (s.Update i).2.sent = none) : s.Sent (i :: rest) = (s.Update i).1.Sent rest := by
  simp [Sent, h]

theorem Sent_cons_some (s : HostState E) (i : HostInput) (rest : List HostInput)
    (msg : List Field) (h : (s.Update i).2.sent = some msg) :
    s.Sent (i :: rest) = msg :: (s.Update i).1.Sent rest := by
  simp [Sent, h]

/-- The frame numbers sent during a run are the successors of the frame counter, in
order, modulo `2^32`. -/
theorem SentFrames_eq (s : HostState E) (ins : List HostInput) :
    s.SentFrames ins =
      (List.range' 1 (s.Sent ins).length).map (fun k => (s.local_frame_ + k) % kFrameModulus) := by
  induction ins generalizing s with
  | nil => simp [SentFrames, Sent]
  | cons i rest ih =>
    rcases Update_step s i with ⟨hs, hf, -⟩ | ⟨msg, hs, hm, hf, -⟩
    · have := ih (s.Update i).1
      unfold SentFrames at this ⊢
      rw [Sent_cons_none s i rest hs, this, hf]
    · have := ih (s.Update i).1
      unfold SentFrames at this ⊢
      rw [Sent_cons_some s i rest msg hs, List.map_cons, this, hf, hm, List.length_cons,
        List.range'_succ, List.map_cons, List.range'_eq_map_range, List.range'_eq_map_range]
      simp only [List.map_map, List.cons.injEq, true_and]
      apply List.map_congr_left
      intro k _
      simp only [Function.comp, kFrameModulus]
      omega

/-- The frame counter after a run. -/
theorem Run_local_frame (s : HostState E) (ins : List HostInput)
    (h : s.local_frame_ < kFrameModulus) :
    (s.Run ins).local_frame_ = (s.local_frame_ + (s.Sent ins).length) % kFrameModulus := by
  induction ins generalizing s with
  | nil => simp [Run, Sent, Nat.mod_eq_of_lt h]
  | cons i rest ih =>
    rcases Update_step s i with ⟨hs, hf, -⟩ | ⟨msg, hs, hm, hf, -⟩
    · rw [Run_cons, Sent_cons_none s i rest hs, ih _ (hf ▸ h), hf]
    · have hlt : (s.Update i).1.local_frame_ < kFrameModulus := by
        rw [hf]; exact Nat.mod_lt _ (by simp [kFrameModulus])
      rw [Run_cons, Sent_cons_some s i rest msg hs, ih _ hlt, hf, List.length_cons]
      simp only [kFrameModulus]
      omega

/-- The history after a run holds the newest 100 of the frames it held before followed by
the frames sent during the run. -/
theorem Run_Frames (s : HostState E) (ins : List HostInput)
    (h : s.Frames.length ≤ kLocalStateHistorySize) :
    (s.Run ins).Frames =
      (s.Frames ++ s.SentFrames ins).drop
        ((s.Frames ++ s.SentFrames ins).length - kLocalStateHistorySize) := by
  induction ins generalizing s with
  | nil =>
    have : s.Frames.length - kLocalStateHistorySize = 0 := by omega
    simp [Run, SentFrames, Sent, this]
  | cons i rest ih =>
    rcases Update_step s i with ⟨hs, -, hh⟩ | ⟨msg, hs, hm, -, hh⟩
    · have hF : (s.Update i).1.Frames = s.Frames := by unfold Frames; rw [hh]
      have := ih (s.Update i).1 (hF ▸ h)
      unfold SentFrames at this ⊢
      rw [Run_cons, Sent_cons_none s i rest hs, this, hF]
    · have hlen : (s.Update i).1.Frames.length ≤ kLocalStateHistorySize := by
        rw [hh]; simp only [List.length_drop, List.length_append, List.length_singleton]; omega
      have := ih (s.Update i).1 hlen
      unfold SentFrames at this ⊢
      rw [Run_cons, Sent_cons_some s i rest msg hs, this, hh, drop_append_drop,
        List.map_cons, hm, List.append_assoc, List.singleton_append]

/-- A run sends at most one message per tick. -/
theorem Sent_length_le (s : HostState E) (ins : List HostInput) :
    (s.Sent ins).length ≤ ins.length := by
  induction ins generalizing s with
  | nil => simp [Sent]
  | cons i rest ih =>
    cases hs : (s.Update i).2.sent with
    | none =>
      rw [Sent_cons_none s i rest hs, List.length_cons]
      exact Nat.le_succ_of_le (ih _)
    | some msg =>
      rw [Sent_cons_some s i rest msg hs, List.length_cons, List.length_cons]
      exact Nat.succ_le_succ (ih _)

/-- The history never grows beyond its capacity. -/
theorem Run_history_length (s : HostState E) (ins : List HostInput)
    (h : s.local_state_history_.length ≤ kLocalStateHistorySize) :
    (s.Run ins).local_state_history_.length ≤ kLocalStateHistorySize := by
  have h1 : s.Frames.length ≤ kLocalStateHistorySize := by simpa [Frames] using h
  have h2 := congrArg List.length (Run_Frames s ins h1)
  simp only [Frames, List.length_map, List.length_drop, List.length_append] at h2
  rw [h2]
  simp only [Frames, List.length_map] at h1
  omega

/-- What the send block does is independent of the buffer content it starts from. -/
theorem Send_packet_irrelevant (s : HostState E) (p : Packet) :
    ({ s with packet_ := p } : HostState E).Send.2 = s.Send.2 ∧
    { ({ s with packet_ := p } : HostState E).Send.1 with packet_ := s.Send.1.packet_ } =
      s.Send.1 := by
  unfold Send
  by_cases ht : s.send_timer_secs_ - system_dt < 0
  · simp [ht, Packet.Reset]
  · simp [ht]

/-- A message whose frame number is not newer is read as `stale`. -/
theorem ReadMessage_stale (remote_frame : Nat) (p : Packet) (fields : List Field)
    (h : frameOf fields ≤ remote_frame) :
    (ReadMessage remote_frame (p.Reset.Fill fields)).1 = HostRead.stale (frameOf fields) := by
  have h' : ¬ (frameOf fields > remote_frame) := by omega
  unfold ReadMessage
  simp only [frameOf, ReadValue_u_long, Packet.Fill, Packet.Reset] at h' ⊢
  simp only [h', if_false]

/-- A message whose frame number is not newer only moves the cursor of the buffer. -/
theorem Receive_stale (s : HostState E) (fields : List Field)
    (h : frameOf fields ≤ s.remote_frame_) :
    ∃ p, s.Receive (some fields) = ({ (s.Receive none).1 with packet_ := p }, none) := by
  have hread := ReadMessage_stale s.remote_frame_ s.packet_ fields h
  have hpair : ReadMessage s.remote_frame_ (s.packet_.Reset.Fill fields) =
      (HostRead.stale (frameOf fields),
        (ReadMessage s.remote_frame_ (s.packet_.Reset.Fill fields)).2) :=
    Prod.ext hread rfl
  refine ⟨(ReadMessage s.remote_frame_ (s.packet_.Reset.Fill fields)).2, ?_⟩
  unfold Receive
  simp only []
  rw [hpair]

/-- With a tick's input that presses no key and receives nothing, a host whose send is due
sends the next frame number. -/
theorem Update_idle (s : HostState E) (h : s.send_timer_secs_ ≤ 0) :
    (∃ msg, (s.Update HostInput.idle).2.sent = some msg ∧
      frameOf msg = (s.local_frame_ + 1) % kFrameModulus) ∧
    (s.Update HostInput.idle).1.send_timer_secs_ = s.target_time_between_send_ ∧
    (s.Update HostInput.idle).1.target_time_between_send_ = s.target_time_between_send_ := by
  have hlt : s.send_timer_secs_ - system_dt < 0 := by
    have : (0 : ℚ) < system_dt := by norm_num [system_dt]
    linarith
  have hsome : ((s.Advance HostInput.idle).Receive HostInput.idle.received).1.Send.2.isSome
      = true := by
    rw [Send_isSome]
    simpa [HostInput.idle, Receive, Advance] using hlt
  obtain ⟨msg, hmsg⟩ := Option.isSome_iff_exists.mp hsome
  obtain ⟨-, -, h3, h4, -⟩ := Send_some _ msg hmsg
  refine ⟨⟨msg, ?_, ?_⟩, ?_, ?_⟩
  · rw [Update_sent]; exact hmsg
  · rcases Update_step s HostInput.idle with ⟨hs, -⟩ | ⟨msg', hs, hm, -⟩
    · rw [Update_sent, hmsg] at hs; cases hs
    · rw [Update_sent, hmsg] at hs; cases hs; exact hm
  · rw [Update_fst, h3]; rfl
  · rw [Update_fst, h4]; rfl

/-- A host that sends on every tick (send target 0), left alone for `n` ticks. -/
theorem Run_idle (n : Nat) (s : HostState E) (hf : s.local_frame_ < kFrameModulus)
    (ht : s.send_timer_secs_ ≤ 0) (h0 : s.target_time_between_send_ = 0) :
    (s.Sent (List.replicate n HostInput.idle)).length = n ∧
    (s.Run (List.replicate n HostInput.idle)).local_frame_ =
      (s.local_frame_ + n) % kFrameModulus ∧
    (s.Run (List.replicate n HostInput.idle)).send_timer_secs_ ≤ 0 := by
  induction n generalizing s with
  | zero => exact ⟨rfl, by simp [Run, Nat.mod_eq_of_lt hf], ht⟩
  | succ n ih =>
    obtain ⟨⟨msg, hs, hm⟩, h1, h2⟩ := Update_idle s ht
    rcases Update_step s HostInput.idle with ⟨hs', -⟩ | ⟨msg', -, -, hlf, -⟩
    · rw [hs] at hs'; cases hs'
    · have hf' : (s.Update HostInput.idle).1.local_frame_ < kFrameModulus := by
        rw [hlf]; exact Nat.mod_lt _ (by simp [kFrameModulus])
      obtain ⟨i1, i2, i3⟩ := ih (s.Update HostInput.idle).1 hf' (by rw [h1, h0])
        (by rw [h2, h0])
      rw [List.replicate_succ, Run_cons, Sent_cons_some _ _ _ msg hs, List.length_cons, i1, i2,
        hlf]
      refine ⟨rfl, ?_, i3⟩
      simp only [kFrameModulus]
      omega

/-- The host's reads on a newer message without attack: three fields, the cursor ends
on the end of the message. -/
theorem ReadMessage_control (remote_frame : Nat) (p : Packet) (frame : Nat) (is_paused : Bool)
    (h : frame > remote_frame) :
    ReadMessage remote_frame (p.Reset.Fill (controlMessage frame is_paused)) =
      (HostRead.control frame is_paused,
       { data := controlMessage frame is_paused, used := 3 }) := by
  simp [ReadMessage, controlMessage, ReadValue_u_long, ReadValue_bool, Packet.Fill,
    Packet.Reset, h]

/-- The host's reads on a newer message with attack: eight fields, the cursor ends on the
end of the message. -/
theorem ReadMessage_attack (remote_frame : Nat) (p : Packet) (frame : Nat) (is_paused : Bool)
    (attack_x attack_y : ℚ) (attack_sync : SyncRatio) (h : frame > remote_frame) :
    ReadMessage remote_frame
        (p.Reset.Fill (attackMessage frame is_paused attack_x attack_y attack_sync)) =
      (HostRead.attack frame is_paused attack_x attack_y attack_sync.base_frame
        attack_sync.target_frame attack_sync.t,
       { data := attackMessage frame is_paused attack_x attack_y attack_sync, used := 8 }) := by
  simp [ReadMessage, attackMessage, ReadValue_u_long, ReadValue_bool, ReadValue_float,
    Packet.Fill, Packet.Reset, h]

/-- The receive block on a newer message without attack. -/
theorem Receive_control (s : HostState E) (frame : Nat) (is_paused : Bool)
    (h : frame > s.remote_frame_) :
    s.Receive (some (controlMessage frame is_paused)) =
      ({ s with
         packet_ := { data := controlMessage frame is_paused, used := 3 }
         remote_frame_ := frame
         is_remote_paused_ := is_paused }, none) := by
  unfold Receive
  simp only []
  rw [ReadMessage_control s.remote_frame_ s.packet_ frame is_paused h]

/-- The receive block on a newer attack message, by the outcome of the two searches. -/
theorem Receive_attack (s : HostState E) (frame : Nat) (is_paused : Bool)
    (attack_x attack_y : ℚ) (attack_sync : SyncRatio) (h : frame > s.remote_frame_) :
    s.Receive (some (attackMessage frame is_paused attack_x attack_y attack_sync)) =
      match FindRecord s.local_state_history_ attack_sync.base_frame,
            FindRecord s.local_state_history_ attack_sync.target_frame with
      | none, _ =>
        ({ s with
           packet_ :=
             { data := attackMessage frame is_paused attack_x attack_y attack_sync, used := 8 }
           remote_frame_ := frame
           is_remote_paused_ := is_paused },
         some (HostDiagnostic.base_not_found attack_sync.base_frame))
      | some _, none =>
        ({ s with
           packet_ :=
             { data := attackMessage frame is_paused attack_x attack_y attack_sync, used := 8 }
           remote_frame_ := frame
           is_remote_paused_ := is_paused },
         some (HostDiagnostic.target_not_found attack_sync.base_frame
           attack_sync.target_frame))
      | some _, some _ =>
        ({ s with
           packet_ :=
             { data := attackMessage frame is_paused attack_x attack_y attack_sync, used := 8 }
           remote_frame_ := frame
           is_remote_paused_ := is_paused
           client_attack_ :=
             s.client_attack_.Set attack_x attack_y (E.GetCurrentX s.local_control_)
               (E.GetCurrentY s.local_control_) attack_sync
           is_client_attack_queued_ := true
           local_hit_timer_secs_ :=
             if (s.client_attack_.Set attack_x attack_y (E.GetCurrentX s.local_control_)
               (E.GetCurrentY s.local_control_) attack_sync).IsTargetHit
             then kDrawLocalHit_Secs else 0 }, none) := by
  unfold Receive
  simp only []
  rw [ReadMessage_attack s.remote_frame_ s.packet_ frame is_paused attack_x attack_y
    attack_sync h]

/-- The receive block on a newer attack message of which a frame is missing from the
history: the effect of the same message without attack, and a diagnostic. -/
theorem Receive_attack_miss (s : HostState E) (frame : Nat) (is_paused : Bool)
    (attack_x attack_y : ℚ) (attack_sync : SyncRatio) (h : frame > s.remote_frame_)
    (hmiss : FindRecord s.local_state_history_ attack_sync.base_frame = none ∨
      FindRecord s.local_state_history_ attack_sync.target_frame = none) :
    s.Receive (some (attackMessage frame is_paused attack_x attack_y attack_sync)) =
      ({ (s.Receive (some (controlMessage frame is_paused))).1 with
          packet_ :=
            { data := attackMessage frame is_paused attack_x attack_y attack_sync, used := 8 } },
        some (if (FindRecord s.local_state_history_ attack_sync.base_frame).isNone
          then HostDiagnostic.base_not_found attack_sync.base_frame
          else HostDiagnostic.target_not_found attack_sync.base_frame
            attack_sync.target_frame)) := by
  rw [Receive_attack s frame is_paused attack_x attack_y attack_sync h,
    Receive_control s frame is_paused h]
  cases hb : FindRecord s.local_state_history_ attack_sync.base_frame with
  | none => simp
  | some rb =>
    cases ht : FindRecord s.local_state_history_ attack_sync.target_frame with
    | none => simp
    | some rt => rw [hb, ht] at hmiss; simp at hmiss

/-- A newer attack message is accepted whatever the searches find: frame number and pause
flag are taken over. -/
theorem Receive_attack_accepts (s : HostState E) (frame : Nat) (is_paused : Bool)
    (attack_x attack_y : ℚ) (attack_sync : SyncRatio) (h : frame > s.remote_frame_) :
    (s.Receive (some (attackMessage frame is_paused attack_x attack_y attack_sync))
      ).1.remote_frame_ = frame ∧
    (s.Receive (some (attackMessage frame is_paused attack_x attack_y attack_sync))
      ).1.is_remote_paused_ = is_paused := by
  rw [Receive_attack s frame is_paused attack_x attack_y attack_sync h]
  cases FindRecord s.local_state_history_ attack_sync.base_frame <;>
    cases FindRecord s.local_state_history_ attack_sync.target_frame <;> exact ⟨rfl, rfl⟩

/-- The send block leaves what the receive block accepted as it is. -/
theorem Send_preserves (s : HostState E) :
    s.Send.1.remote_frame_ = s.remote_frame_ ∧
    s.Send.1.is_remote_paused_ = s.is_remote_paused_ ∧
    s.Send.1.client_attack_ = s.client_attack_ ∧
    s.Send.1.local_hit_timer_secs_ = s.local_hit_timer_secs_ := by
  unfold Send
  by_cases ht : s.send_timer_secs_ - system_dt < 0 <;> simp [ht]

end HostState

/-! ## Properties of the client's phases -/

namespace ClientState

variable {E : ClientEnv}

theorem Update_eq (s : ClientState E) (i : ClientInput) :
    s.Update i = ((s.Advance i).Receive i.received).Send i.key_SPACE_down := rfl

/-- The first part of a tick leaves frame numbers and timers as they are. -/
theorem client_Advance_preserves (s : ClientState E) (i : ClientInput) :
    (s.Advance i).remote_frame_ = s.remote_frame_ ∧
    (s.Advance i).local_frame_ = s.local_frame_ ∧
    (s.Advance i).send_timer_secs_ = s.send_timer_secs_ ∧
    (s.Advance i).time_since_last_recv_ = s.time_since_last_recv_ := by
  unfold Advance Prepare
  cases i.key_D_triggered <;> cases i.key_A_triggered <;> cases i.key_F_triggered <;> simp

/-- Without the attack key the first part of a tick leaves the queued attack as it is. -/
theorem client_Advance_quiet (s : ClientState E) (i : ClientInput)
    (h : i.key_F_triggered = false) :
    (s.Advance i).is_attack_queued_ = s.is_attack_queued_ ∧
    (s.Advance i).local_attack_ = s.local_attack_ := by
  unfold Advance Prepare
  cases i.key_D_triggered <;> cases i.key_A_triggered <;> simp [h]

/-- On the attack key the first part of a tick queues an attack. -/
theorem client_Advance_trigger (s : ClientState E) (i : ClientInput)
    (h : i.key_F_triggered = true) : (s.Advance i).is_attack_queued_ = true := by
  unfold Advance Prepare
  cases i.key_D_triggered <;> cases i.key_A_triggered <;> simp [h]

/-- The receive block leaves the frame counter, the send timer, the active control and the
queued attack as they are. -/
theorem client_Receive_preserves (s : ClientState E) (received : Option (List Field)) :
    (s.Receive received).local_frame_ = s.local_frame_ ∧
    (s.Receive received).send_timer_secs_ = s.send_timer_secs_ ∧
    (s.Receive received).is_attack_queued_ = s.is_attack_queued_ ∧
    (s.Receive received).local_attack_ = s.local_attack_ ∧
    (s.Receive received).active_control_ = s.active_control_ := by
  cases received with
  | none => exact ⟨rfl, rfl, rfl, rfl, rfl⟩
  | some fields =>
    unfold Receive
    rcases h : ReadMessage s.remote_frame_ (s.packet_.Reset.Fill fields) with ⟨read, p⟩
    cases read <;> simp [h, StoreInControls]

/-- The message written by the client's send block, and the state it leaves. -/
theorem client_Send_some (s : ClientState E) (is_local_paused : Bool) (msg : List Field)
    (h : (s.Send is_local_paused).2 = some msg) :
    msg = (if s.is_attack_queued_ then
        attackMessage ((s.local_frame_ + 1) % kFrameModulus) is_local_paused
          s.local_attack_.x_ s.local_attack_.y_ s.local_attack_.sync_ratio_
      else controlMessage ((s.local_frame_ + 1) % kFrameModulus) is_local_paused) ∧
    (s.Send is_local_paused).1.local_frame_ = (s.local_frame_ + 1) % kFrameModulus ∧
    (s.Send is_local_paused).1.is_attack_queued_ = false ∧
    (s.Send is_local_paused).1.local_attack_ = s.local_attack_ ∧
    (s.Send is_local_paused).1.send_timer_secs_ = kTimeBetweenClientSend_Secs := by
  unfold Send at h ⊢
  by_cases ht : s.send_timer_secs_ - system_dt < 0
  · simp only [ht, if_true, Option.some.injEq] at h
    refine ⟨?_, by simp [ht], by simp [ht], by simp [ht], by simp [ht]⟩
    rw [← h]
    cases hq : s.is_attack_queued_ <;>
      simp [Packet.Sent, Packet.Reset, WriteValue_u_long, WriteValue_float, WriteValue_bool,
        WriteField, Attack.GetAttackX, Attack.GetAttackY, Attack.GetSyncRatio, attackMessage,
        controlMessage]
  · simp [ht] at h

theorem client_Send_none (s : ClientState E) (is_local_paused : Bool)
    (h : (s.Send is_local_paused).2 = none) :
    (s.Send is_local_paused).1 =
      { s with send_timer_secs_ := s.send_timer_secs_ - system_dt } := by
  unfold Send at h ⊢
  by_cases ht : s.send_timer_secs_ - system_dt < 0
  · simp [ht] at h
  · simp [ht]

theorem client_Send_isSome (s : ClientState E) (is_local_paused : Bool) :
    (s.Send is_local_paused).2.isSome = decide (s.send_timer_secs_ - system_dt < 0) := by
  unfold Send
  by_cases ht : s.send_timer_secs_ - system_dt < 0 <;> simp [ht]

/-- Receive and send blocks of one tick, seen from the queued attack and the frame
counter. -/
theorem Receive_Send (t : ClientState E) (received : Option (List Field))
    (is_local_paused : Bool) :
    (((t.Receive received).Send is_local_paused).2 = none ∧
      ((t.Receive received).Send is_local_paused).1.local_frame_ = t.local_frame_ ∧
      ((t.Receive received).Send is_local_paused).1.is_attack_queued_ = t.is_attack_queued_ ∧
      ((t.Receive received).Send is_local_paused).1.local_attack_ = t.local_attack_) ∨
    (∃ msg, ((t.Receive received).Send is_local_paused).2 = some msg ∧
      msg = (if t.is_attack_queued_ then
          attackMessage ((t.local_frame_ + 1) % kFrameModulus) is_local_paused
            t.local_attack_.x_ t.local_attack_.y_ t.local_attack_.sync_ratio_
        else controlMessage ((t.local_frame_ + 1) % kFrameModulus) is_local_paused) ∧
      ((t.Receive received).Send is_local_paused).1.local_frame_
        = (t.local_frame_ + 1) % kFrameModulus ∧
      ((t.Receive received).Send is_local_paused).1.is_attack_queued_ = false ∧
      ((t.Receive received).Send is_local_paused).1.local_attack_ = t.local_attack_) := by
  obtain ⟨h1, -, h3, h4, -⟩ := client_Receive_preserves t received
  cases hs : ((t.Receive received).Send is_local_paused).2 with
  | none =>
    left
    rw [client_Send_none _ _ hs]
    exact ⟨rfl, h1, h3, h4⟩
  | some msg =>
    right
    obtain ⟨g1, g2, g3, g4, -⟩ := client_Send_some _ _ msg hs
    rw [h1, h3, h4] at g1
    exact ⟨msg, rfl, g1, by rw [g2, h1], g3, by rw [g4, h4]⟩

/-- A message whose frame number is not newer is read as `stale` by the client. -/
theorem client_ReadMessage_stale (remote_frame : Nat) (p : Packet) (fields : List Field)
    (h : frameOf fields ≤ remote_frame) :
    (ReadMessage remote_frame (p.Reset.Fill fields)).1 = ClientRead.stale (frameOf fields) := by
  have h' : ¬ (frameOf fields > remote_frame) := by omega
  unfold ReadMessage
  simp only [frameOf, ReadValue_u_long, Packet.Fill, Packet.Reset] at h' ⊢
  simp only [h', if_false]

/-- A message that is not newer moves the cursor of the buffer and resets the
receipt-delay accumulator. -/
theorem client_Receive_stale (s : ClientState E) (fields : List Field)
    (h : frameOf fields ≤ s.remote_frame_) :
    ∃ p, s.Receive (some fields) =
      { s.Receive none with packet_ := p, time_since_last_recv_ := 0 } := by
  have hread := client_ReadMessage_stale s.remote_frame_ s.packet_ fields h
  have hpair : ReadMessage s.remote_frame_ (s.packet_.Reset.Fill fields) =
      (ClientRead.stale (frameOf fields),
        (ReadMessage s.remote_frame_ (s.packet_.Reset.Fill fields)).2) :=
    Prod.ext hread rfl
  refine ⟨(ReadMessage s.remote_frame_ (s.packet_.Reset.Fill fields)).2, ?_⟩
  unfold Receive
  simp only []
  rw [hpair]

/-- What the client's send block does is independent of the buffer content and of the
receipt-delay accumulator it starts from. -/
theorem client_Send_irrelevant (s : ClientState E) (is_local_paused : Bool) (p : Packet)
    (t : ℚ) :
    (({ s with packet_ := p, time_since_last_recv_ := t } : ClientState E).Send
        is_local_paused).2 = (s.Send is_local_paused).2 ∧
    { (({ s with packet_ := p, time_since_last_recv_ := t } : ClientState E).Send
        is_local_paused).1 with
      packet_ := (s.Send is_local_paused).1.packet_
      time_since_last_recv_ := (s.Send is_local_paused).1.time_since_last_recv_ } =
      (s.Send is_local_paused).1 ∧
    (({ s with packet_ := p, time_since_last_recv_ := t } : ClientState E).Send
        is_local_paused).1.time_since_last_recv_ = t := by
  unfold Send
  by_cases ht : s.send_timer_secs_ - system_dt < 0
  · simp [ht, Packet.Reset]
  · simp [ht]

/-- The first part of a tick advances each of the six controls by `system_dt` and leaves
confirmed attack and hit timer as they are. -/
theorem client_Advance_controls (s : ClientState E) (i : ClientInput) :
    (s.Advance i).simple_local_control_ = E.simple.Update s.simple_local_control_ system_dt ∧
    (s.Advance i).simple_remote_control_ = E.simple.Update s.simple_remote_control_ system_dt ∧
    (s.Advance i).dr_local_control_ = E.dr.Update s.dr_local_control_ system_dt ∧
    (s.Advance i).dr_remote_control_ = E.dr.Update s.dr_remote_control_ system_dt ∧
    (s.Advance i).snapshot_local_control_
      = E.snapshot.Update s.snapshot_local_control_ system_dt ∧
    (s.Advance i).snapshot_remote_control_
      = E.snapshot.Update s.snapshot_remote_control_ system_dt ∧
    (s.Advance i).remote_confirmed_attack_ = s.remote_confirmed_attack_ ∧
    (s.Advance i).remote_hit_timer_secs_ = s.remote_hit_timer_secs_ := by
  unfold Advance Prepare
  cases i.key_D_triggered <;> cases i.key_A_triggered <;> cases i.key_F_triggered <;> simp

/-- The send block leaves what the receive block stored as it is. -/
theorem client_Send_preserves (s : ClientState E) (is_local_paused : Bool) :
    (s.Send is_local_paused).1.remote_frame_ = s.remote_frame_ ∧
    (s.Send is_local_paused).1.simple_local_control_ = s.simple_local_control_ ∧
    (s.Send is_local_paused).1.simple_remote_control_ = s.simple_remote_control_ ∧
    (s.Send is_local_paused).1.dr_local_control_ = s.dr_local_control_ ∧
    (s.Send is_local_paused).1.dr_remote_control_ = s.dr_remote_control_ ∧
    (s.Send is_local_paused).1.snapshot_local_control_ = s.snapshot_local_control_ ∧
    (s.Send is_local_paused).1.snapshot_remote_control_ = s.snapshot_remote_control_ ∧
    (s.Send is_local_paused).1.remote_confirmed_attack_ = s.remote_confirmed_attack_ ∧
    (s.Send is_local_paused).1.remote_hit_timer_secs_ = s.remote_hit_timer_secs_ := by
  unfold Send
  by_cases ht : s.send_timer_secs_ - system_dt < 0 <;> simp [ht]

/-- The client's reads on a newer host message without confirmed attack: ten fields. -/
theorem ReadMessage_update (remote_frame : Nat) (p : Packet) (frame : Nat)
    (hx hy hvx hvy cx cy cvx cvy : ℚ) (h : frame > remote_frame) :
    ReadMessage remote_frame (p.Reset.Fill
        [Field.u32 frame, Field.f32 hx, Field.f32 hy, Field.f32 hvx, Field.f32 hvy,
         Field.f32 cx, Field.f32 cy, Field.f32 cvx, Field.f32 cvy, Field.bool false]) =
      (ClientRead.update frame hx hy hvx hvy cx cy cvx cvy,
       { data := [Field.u32 frame, Field.f32 hx, Field.f32 hy, Field.f32 hvx, Field.f32 hvy,
           Field.f32 cx, Field.f32 cy, Field.f32 cvx, Field.f32 cvy, Field.bool false],
         used := 10 }) := by
  simp [ReadMessage, ReadValue_u_long, ReadValue_bool, ReadValue_float, Packet.Fill,
    Packet.Reset, h]

/-- The client's reads on a newer host message with confirmed attack: fourteen fields. -/
theorem ReadMessage_confirmed (remote_frame : Nat) (p : Packet) (frame : Nat)
    (hx hy hvx hvy cx cy cvx cvy ax ay tx ty : ℚ) (h : frame > remote_frame) :
    ReadMessage remote_frame (p.Reset.Fill
        [Field.u32 frame, Field.f32 hx, Field.f32 hy, Field.f32 hvx, Field.f32 hvy,
         Field.f32 cx, Field.f32 cy, Field.f32 cvx, Field.f32 cvy, Field.bool true,
         Field.f32 ax, Field.f32 ay, Field.f32 tx, Field.f32 ty]) =
      (ClientRead.confirmed frame hx hy hvx hvy cx cy cvx cvy ax ay tx ty,
       { data := [Field.u32 frame, Field.f32 hx, Field.f32 hy, Field.f32 hvx, Field.f32 hvy,
           Field.f32 cx, Field.f32 cy, Field.f32 cvx, Field.f32 cvy, Field.bool true,
           Field.f32 ax, Field.f32 ay, Field.f32 tx, Field.f32 ty],
         used := 14 }) := by
  simp [ReadMessage, ReadValue_u_long, ReadValue_bool, ReadValue_float, Packet.Fill,
    Packet.Reset, h]

/-- The receive block on a newer host message without confirmed attack. -/
theorem client_Receive_update (t : ClientState E) (frame : Nat)
    (hx hy hvx hvy cx cy cvx cvy : ℚ) (h : frame > t.remote_frame_) :
    t.Receive (some
        [Field.u32 frame, Field.f32 hx, Field.f32 hy, Field.f32 hvx, Field.f32 hvy,
         Field.f32 cx, Field.f32 cy, Field.f32 cvx, Field.f32 cvy, Field.bool false]) =
      { ({ t with
            time_since_last_recv_ := t.time_since_last_recv_ + system_dt
            packet_ :=
              { data := [Field.u32 frame, Field.f32 hx, Field.f32 hy, Field.f32 hvx,
                  Field.f32 hvy, Field.f32 cx, Field.f32 cy, Field.f32 cvx, Field.f32 cvy,
                  Field.bool false],
                used := 10 }
            remote_frame_ := frame } : ClientState E).StoreInControls
          hx hy hvx hvy cx cy cvx cvy with
        time_since_last_recv_ := 0 } := by
  unfold Receive
  simp only []
  rw [ReadMessage_update t.remote_frame_ t.packet_ frame hx hy hvx hvy cx cy cvx cvy h]

/-- The receive block on a newer host message with confirmed attack. -/
theorem client_Receive_confirmed (t : ClientState E) (frame : Nat)
    (hx hy hvx hvy cx cy cvx cvy ax ay tx ty : ℚ) (h : frame > t.remote_frame_) :
    t.Receive (some
        [Field.u32 frame, Field.f32 hx, Field.f32 hy, Field.f32 hvx, Field.f32 hvy,
         Field.f32 cx, Field.f32 cy, Field.f32 cvx, Field.f32 cvy, Field.bool true,
         Field.f32 ax, Field.f32 ay, Field.f32 tx, Field.f32 ty]) =
      { ({ t with
            time_since_last_recv_ := t.time_since_last_recv_ + system_dt
            packet_ :=
              { data := [Field.u32 frame, Field.f32 hx, Field.f32 hy, Field.f32 hvx,
                  Field.f32 hvy, Field.f32 cx, Field.f32 cy, Field.f32 cvx, Field.f32 cvy,
                  Field.bool true, Field.f32 ax, Field.f32 ay, Field.f32 tx, Field.f32 ty],
                used := 14 }
            remote_frame_ := frame
            remote_confirmed_attack_ := t.remote_confirmed_attack_.Set ax ay tx ty SyncRatio.zero
            remote_hit_timer_secs_ :=
              if (t.remote_confirmed_attack_.Set ax ay tx ty SyncRatio.zero).IsTargetHit
              then kDrawRemoteHit_Secs else 0 } : ClientState E).StoreInControls
          hx hy hvx hvy cx cy cvx cvy with
        time_since_last_recv_ := 0 } := by
  unfold Receive
  simp only []
  rw [ReadMessage_confirmed t.remote_frame_ t.packet_ frame hx hy hvx hvy cx cy cvx cvy
    ax ay tx ty h]

/-- One call on the client, seen from the frame counter: either nothing is sent and it
stays, or the next frame number is sent. -/
theorem Step_frames (s : ClientState E) (e : ClientEvent) :
    ((s.Step e).2 = none ∧ (s.Step e).1.local_frame_ = s.local_frame_) ∨
    (∃ msg, (s.Step e).2 = some msg ∧
      frameOf msg = (s.local_frame_ + 1) % kFrameModulus ∧
      (s.Step e).1.local_frame_ = (s.local_frame_ + 1) % kFrameModulus) := by
  cases e with
  | draw dt =>
    left
    refine ⟨rfl, ?_⟩
    simp only [Step, Draw]
    split <;> rfl
  | update i =>
    have hA := (client_Advance_preserves s i).2.1
    rcases Receive_Send (s.Advance i) i.received i.key_SPACE_down with ⟨h1, h2, -⟩ |
      ⟨msg, h1, h2, h3, -⟩
    · left
      exact ⟨h1, by rw [← hA]; exact h2⟩
    · right
      refine ⟨msg, h1, ?_, by rw [← hA]; exact h3⟩
      rw [h2, ← hA]
      cases (s.Advance i).is_attack_queued_ <;>
        simp [frameOf, attackMessage, controlMessage, ReadValue_u_long]

theorem client_Sent_cons_none (s : ClientState E) (e : ClientEvent) (rest : List ClientEvent)
    (h : (s.Step e).2 = none) : s.Sent (e :: rest) = (s.Step e).1.Sent rest := by
  simp [Sent, h]

theorem client_Sent_cons_some (s : ClientState E) (e : ClientEvent) (rest : List ClientEvent)
    (msg : List Field) (h : (s.Step e).2 = some msg) :
    s.Sent (e :: rest) = msg :: (s.Step e).1.Sent rest := by
  simp [Sent, h]

/-- The frame numbers sent by the client during a run are the successors of the frame
counter, in order, modulo `2^32`. -/
theorem client_SentFrames_eq (s : ClientState E) (events : List ClientEvent) :
    s.SentFrames events =
      (List.range' 1 (s.Sent events).length).map
        (fun k => (s.local_frame_ + k) % kFrameModulus) := by
  induction events generalizing s with
  | nil => simp [SentFrames, Sent]
  | cons e rest ih =>
    rcases Step_frames s e with ⟨hs, hf⟩ | ⟨msg, hs, hm, hf⟩
    · have := ih (s.Step e).1
      unfold SentFrames at this ⊢
      rw [client_Sent_cons_none s e rest hs, this, hf]
    · have := ih (s.Step e).1
      unfold SentFrames at this ⊢
      rw [client_Sent_cons_some s e rest msg hs, List.map_cons, this, hf, hm,
        List.length_cons, List.range'_succ, List.map_cons, List.range'_eq_map_range,
        List.range'_eq_map_range]
      simp only [List.map_map, List.cons.injEq, true_and]
      apply List.map_congr_left
      intro k _
      simp only [Function.comp, kFrameModulus]
      omega

/-- A run sends at most one message per call. -/
theorem client_Sent_length_le (s : ClientState E) (events : List ClientEvent) :
    (s.Sent events).length ≤ events.length := by
  induction events generalizing s with
  | nil => simp [Sent]
  | cons e rest ih =>
    cases hs : (s.Step e).2 with
    | none =>
      rw [client_Sent_cons_none s e rest hs, List.length_cons]
      exact Nat.le_succ_of_le (ih _)
    | some msg =>
      rw [client_Sent_cons_some s e rest msg hs, List.length_cons, List.length_cons]
      exact Nat.succ_le_succ (ih _)

/-- Drawing leaves the queue flag and the transmitted part of the stored attack as they
are. -/
theorem Draw_preserves (s : ClientState E) (dt : ℚ) :
    (s.Draw dt).is_attack_queued_ = s.is_attack_queued_ ∧
    (s.Draw dt).local_attack_.x_ = s.local_attack_.x_ ∧
    (s.Draw dt).local_attack_.y_ = s.local_attack_.y_ ∧
    (s.Draw dt).local_attack_.sync_ratio_ = s.local_attack_.sync_ratio_ := by
  have ha : (s.local_attack_.Draw true true).x_ = s.local_attack_.x_ ∧
      (s.local_attack_.Draw true true).y_ = s.local_attack_.y_ ∧
      (s.local_attack_.Draw true true).sync_ratio_ = s.local_attack_.sync_ratio_ := by
    unfold Attack.Draw
    split <;> exact ⟨rfl, rfl, rfl⟩
  unfold Draw
  simp only []
  split <;> exact ⟨rfl, ha.1, ha.2.1, ha.2.2⟩

/-- One call without the attack key: either nothing is sent and the queued attack stays,
or the message sent carries the queued attack, if any, and the queue is empty afterwards. -/
theorem Step_quiet (s : ClientState E) (e : ClientEvent) (h : e.triggers = false) :
    ((s.Step e).2 = none ∧
      (s.Step e).1.is_attack_queued_ = s.is_attack_queued_ ∧
      (s.Step e).1.local_attack_.x_ = s.local_attack_.x_ ∧
      (s.Step e).1.local_attack_.y_ = s.local_attack_.y_ ∧
      (s.Step e).1.local_attack_.sync_ratio_ = s.local_attack_.sync_ratio_) ∨
    (∃ msg f p, (s.Step e).2 = some msg ∧
      msg = (if s.is_attack_queued_ then
          attackMessage f p s.local_attack_.x_ s.local_attack_.y_ s.local_attack_.sync_ratio_
        else controlMessage f p) ∧
      (s.Step e).1.is_attack_queued_ = false) := by
  cases e with
  | draw dt => exact Or.inl ⟨rfl, Draw_preserves s dt⟩
  | update i =>
    obtain ⟨hq, ha⟩ := client_Advance_quiet s i h
    rcases Receive_Send (s.Advance i) i.received i.key_SPACE_down with ⟨h1, -, h3, h4⟩ |
      ⟨msg, h1, h2, -, h4, -⟩
    · left
      refine ⟨h1, ?_, ?_, ?_, ?_⟩
      · rw [← hq]; exact h3
      · rw [← ha]; exact congrArg Attack.x_ h4
      · rw [← ha]; exact congrArg Attack.y_ h4
      · rw [← ha]; exact congrArg Attack.sync_ratio_ h4
    · right
      refine ⟨msg, ((s.Advance i).local_frame_ + 1) % kFrameModulus, i.key_SPACE_down, h1,
        ?_, h4⟩
      rw [h2, hq, ha]

/-- While no attack is queued and the attack key stays untouched, every message sent has
`is_attacking = false`. -/
theorem Sent_quiet_unqueued (s : ClientState E) (events : List ClientEvent)
    (hq : s.is_attack_queued_ = false) (hquiet : ∀ e ∈ events, e.triggers = false) :
    ∀ msg ∈ s.Sent events, ∃ f p, msg = controlMessage f p := by
  induction events generalizing s with
  | nil => intro msg hmsg; simp [Sent] at hmsg
  | cons e rest ih =>
    have hrest : ∀ e' ∈ rest, e'.triggers = false :=
      fun e' he' => hquiet e' (List.mem_cons_of_mem _ he')
    rcases Step_quiet s e (hquiet e (List.mem_cons_self _ _)) with ⟨h1, h2, -⟩ |
      ⟨m, f, p, h1, h2, h3⟩
    · rw [client_Sent_cons_none s e rest h1]
      exact ih _ (by rw [h2]; exact hq) hrest
    · rw [client_Sent_cons_some s e rest m h1]
      intro msg hmsg
      rcases List.mem_cons.mp hmsg with rfl | hmem
      · rw [hq] at h2
        exact ⟨f, p, by simpa using h2⟩
      · exact ih _ h3 hrest msg hmem

/-- While an attack is queued and the attack key stays untouched, the first message sent
carries it and every later one has `is_attacking = false`. -/
theorem Sent_quiet_queued (s : ClientState E) (events : List ClientEvent)
    (hq : s.is_attack_queued_ = true) (hquiet : ∀ e ∈ events, e.triggers = false)
    (x y : ℚ) (sync : SyncRatio) (hx : s.local_attack_.x_ = x) (hy : s.local_attack_.y_ = y)
    (hsync : s.local_attack_.sync_ratio_ = sync) :
    s.Sent events = [] ∨
    ∃ f p later, s.Sent events = attackMessage f p x y sync :: later ∧
      ∀ msg ∈ later, ∃ f' p', msg = controlMessage f' p' := by
  induction events generalizing s with
  | nil => exact Or.inl rfl
  | cons e rest ih =>
    have hrest : ∀ e' ∈ rest, e'.triggers = false :=
      fun e' he' => hquiet e' (List.mem_cons_of_mem _ he')
    rcases Step_quiet s e (hquiet e (List.mem_cons_self _ _)) with ⟨h1, h2, h3, h4, h5⟩ |
      ⟨m, f, p, h1, h2, h3⟩
    · rw [client_Sent_cons_none s e rest h1]
      exact ih _ (by rw [h2]; exact hq) hrest (by rw [h3]; exact hx) (by rw [h4]; exact hy)
        (by rw [h5]; exact hsync)
    · right
      rw [client_Sent_cons_some s e rest m h1]
      rw [hq, hx, hy, hsync] at h2
      simp only [if_true] at h2
      exact ⟨f, p, _, by rw [h2], Sent_quiet_unqueued _ rest h3 hrest⟩

end ClientState

/-- Below `2^32` the successors of 0 modulo `2^32` are the numbers themselves. -/
theorem map_mod_range' (n : Nat) (h : n < kFrameModulus) :
    (List.range' 1 n).map (fun k => (0 + k) % kFrameModulus) = List.range' 1 n := by
  rw [List.map_congr_left (g := id), List.map_id]
  intro k hk
  simp only [List.mem_range', Nat.one_mul] at hk
  obtain ⟨j, hj, rfl⟩ := hk
  simp only [id, Nat.zero_add]
  exact Nat.mod_eq_of_lt (by omega)

/-! ## Claims about the host -/

/-- C1, the code at the scenario of the specification.  The history holds frame 10 at
(100,100) and frame 12 at (200,100), the host entity stands at (500,500), and an accepted
attack at (150,100) refers to frames 10 and 12 with t = 1/2.  The blend of the two records
is (150,100), which the attack point hits; the confirmed attack stored by `Update` has
target (500,500), the host's current position, and is a miss. -/
theorem C1_host_resolves_against_current_position :
    (scenarioHost.Update
        { HostInput.idle with received := some (scenarioAttackMessage 10 12 (1 / 2)) }
      ).1.client_attack_ =
      { ({} : Attack) with
        x_ := 150, y_ := 100, target_x_ := 500, target_y_ := 500, alpha_ := 255,
        is_target_hit_ := false, sync_ratio_ := ⟨10, 12, 1 / 2⟩ } ∧
    (HostState.FindRecord scenarioHost.local_state_history_ 10).map (fun r => r.snapshot)
      = some ⟨100, 100, 0⟩ ∧
    (HostState.FindRecord scenarioHost.local_state_history_ 12).map (fun r => r.snapshot)
      = some ⟨200, 100, 0⟩ ∧
    blend 100 200 (1 / 2) = 150 ∧ blend 100 100 (1 / 2) = 100 ∧
    IsWithinDistance 150 100 150 100 kAttackRadius = true := by
  refine ⟨?_, ?_, ?_, ?_, ?_, ?_⟩
  · simp [HostState.Update, HostState.Advance, HostState.Receive, HostState.ReadMessage,
      HostState.Send, scenarioHost, scenarioAttackMessage, HostInput.idle, HostState.Create,
      ReadValue_u_long, ReadValue_bool, ReadValue_float, Packet.Fill, Packet.Reset,
      HostState.FindRecord, exampleRecord, exampleHostEnv, Attack.Set, system_dt,
      IsWithinDistance, kAttackRadius]
    norm_num
  · simp [HostState.FindRecord, scenarioHost, exampleRecord]
  · simp [HostState.FindRecord, scenarioHost, exampleRecord]
  · norm_num [blend]
  · norm_num [blend]
  · norm_num [IsWithinDistance, kAttackRadius]

/-- C2: the history of the host never holds more than `kLocalStateHistorySize = 100`
records after any tick of a run that starts within the capacity, and eviction is first in,
first out: when a run that starts from an empty history sends 101 messages, the frame
number of the first one is no longer found in the history while each of the 100 later ones
is found. -/
theorem C2_history_bounded_and_fifo (E : HostEnv) (s : HostState E) (ins : List HostInput)
    (hcap : s.local_state_history_.length ≤ kLocalStateHistorySize) :
    (s.Run ins).local_state_history_.length ≤ 100 ∧
    (s.local_state_history_ = [] → (s.Sent ins).length = 101 →
      ∃ first rest, s.Sent ins = first :: rest ∧ rest.length = 100 ∧
        HostState.FindRecord (s.Run ins).local_state_history_ (frameOf first) = none ∧
        ∀ msg ∈ rest,
          (HostState.FindRecord (s.Run ins).local_state_history_ (frameOf msg)).isSome
            = true) := by
  refine ⟨HostState.Run_history_length s ins hcap, ?_⟩
  intro hempty h101
  have hF : s.Frames = [] := by simp [HostState.Frames, hempty]
  have hrun := HostState.Run_Frames s ins (by simp [hF])
  have hsent := HostState.SentFrames_eq s ins
  rw [h101] at hsent
  rw [hF, List.nil_append] at hrun
  have hlen : (s.SentFrames ins).length = 101 := by simp [HostState.SentFrames, h101]
  rw [hlen] at hrun
  cases hS : s.Sent ins with
  | nil => rw [hS] at h101; cases h101
  | cons first rest =>
    have hrest : rest.length = 100 := by
      rw [hS, List.length_cons] at h101; omega
    have hframes : (s.Run ins).Frames = rest.map frameOf := by
      rw [hrun]
      simp [HostState.SentFrames, hS, kLocalStateHistorySize]
    refine ⟨first, rest, rfl, hrest, ?_, ?_⟩
    · rw [HostState.FindRecord_none]
      change frameOf first ∉ (s.Run ins).Frames
      have h1 : s.SentFrames ins = frameOf first :: rest.map frameOf := by
        simp [HostState.SentFrames, hS]
      rw [hframes]
      rw [h1, List.range'_succ, List.map_cons, List.cons.injEq] at hsent
      rw [hsent.1, hsent.2]
      simp only [List.mem_map, List.mem_range', not_exists, not_and]
      rintro k ⟨j, hj, rfl⟩
      simp only [kFrameModulus]
      omega
    · intro msg hmsg
      rw [HostState.FindRecord_isSome]
      change frameOf msg ∈ (s.Run ins).Frames
      rw [hframes]
      exact List.mem_map_of_mem _ hmsg

/-- C2 at a concrete run: the constructed example host, left alone for 101 ticks, sends on
each of them. -/
theorem C2_history_bounded_and_fifo_witness :
    (HostState.Create exampleHostEnv).local_state_history_.length ≤ kLocalStateHistorySize ∧
    (HostState.Create exampleHostEnv).local_state_history_ = [] ∧
    ((HostState.Create exampleHostEnv).Sent (List.replicate 101 HostInput.idle)).length = 101 ∧
    ((HostState.Create exampleHostEnv).Run
        (List.replicate 101 HostInput.idle)).local_state_history_.length ≤ 100 ∧
    ∃ first rest,
      (HostState.Create exampleHostEnv).Sent (List.replicate 101 HostInput.idle)
        = first :: rest ∧ rest.length = 100 ∧
      HostState.FindRecord ((HostState.Create exampleHostEnv).Run
        (List.replicate 101 HostInput.idle)).local_state_history_ (frameOf first) = none ∧
      ∀ msg ∈ rest,
        (HostState.FindRecord ((HostState.Create exampleHostEnv).Run
          (List.replicate 101 HostInput.idle)).local_state_history_ (frameOf msg)).isSome
          = true :=
  have h0 : (HostState.Create exampleHostEnv).local_state_history_ = [] := rfl
  have hcap : (HostState.Create exampleHostEnv).local_state_history_.length
      ≤ kLocalStateHistorySize := by rw [h0]; exact Nat.zero_le _
  have h101 := (HostState.Run_idle 101 (HostState.Create exampleHostEnv)
    (by simp [HostState.Create, kFrameModulus]) (le_of_eq rfl) rfl).1
  have h := C2_history_bounded_and_fifo exampleHostEnv (HostState.Create exampleHostEnv)
    (List.replicate 101 HostInput.idle) hcap
  ⟨hcap, h0, h101, h.1, h.2 h0 h101⟩

/-- C3: a client message whose frame number is not greater than `remote_frame_` changes
nothing but the content of the receive buffer: the tick emits the same output and leaves
the same state, `packet_` apart, as the tick in which `recv` delivers nothing. -/
theorem C3_host_stale_message_discarded (E : HostEnv) (s : HostState E) (i : HostInput)
    (fields : List Field) (hstale : frameOf fields ≤ s.remote_frame_) :
    (s.Update { i with received := some fields }).2 =
      (s.Update { i with received := none }).2 ∧
    { (s.Update { i with received := some fields }).1 with
        packet_ := (s.Update { i with received := none }).1.packet_ } =
      (s.Update { i with received := none }).1 := by
  have hA : s.Advance { i with received := some fields } =
      s.Advance { i with received := none } := rfl
  have hR := HostState.Receive_stale (s.Advance { i with received := none }) fields hstale
  obtain ⟨p, hp⟩ := hR
  have hsend := HostState.Send_packet_irrelevant
    ((s.Advance { i with received := none }).Receive none).1 p
  have f1 : (s.Update { i with received := some fields }).1 =
      ((s.Advance { i with received := none }).Receive (some fields)).1.Send.1 := rfl
  have f2 : (s.Update { i with received := none }).1 =
      ((s.Advance { i with received := none }).Receive none).1.Send.1 := rfl
  have s1 : (s.Update { i with received := some fields }).2.sent =
      ((s.Advance { i with received := none }).Receive (some fields)).1.Send.2 := rfl
  have s2 : (s.Update { i with received := none }).2.sent =
      ((s.Advance { i with received := none }).Receive none).1.Send.2 := rfl
  have p1 : (s.Update { i with received := some fields }).2.printed =
      ((s.Advance { i with received := none }).Receive (some fields)).2 := rfl
  have p2 : (s.Update { i with received := none }).2.printed = none := rfl
  rw [hp] at f1 s1 p1
  constructor
  · have e1 : (s.Update { i with received := some fields }).2.sent =
        (s.Update { i with received := none }).2.sent := by rw [s1, s2]; exact hsend.1
    have e2 : (s.Update { i with received := some fields }).2.printed =
        (s.Update { i with received := none }).2.printed := by rw [p1, p2]
    cases h1 : (s.Update { i with received := some fields }).2
    cases h2 : (s.Update { i with received := none }).2
    rw [h1, h2] at e1 e2
    simp only at e1 e2
    rw [e1, e2]
  · rw [f1, f2]; exact hsend.2

/-- C3 at a concrete input: the scenario host has accepted frame 0 so far and receives a
message numbered 0 that asks for a pause and an attack. -/
theorem C3_host_stale_message_discarded_witness :
    frameOf staleAttackMessage ≤ scenarioHost.remote_frame_ ∧
    (scenarioHost.Update { HostInput.idle with received := some staleAttackMessage }).2 =
      (scenarioHost.Update { HostInput.idle with received := none }).2 ∧
    { (scenarioHost.Update { HostInput.idle with received := some staleAttackMessage }).1 with
        packet_ := (scenarioHost.Update { HostInput.idle with received := none }).1.packet_ } =
      (scenarioHost.Update { HostInput.idle with received := none }).1 :=
  have h : frameOf staleAttackMessage ≤ scenarioHost.remote_frame_ := by
    simp [frameOf, ReadValue_u_long, staleAttackMessage]
  ⟨h, C3_host_stale_message_discarded exampleHostEnv scenarioHost HostInput.idle _ h⟩

/-- C5, as stated, fails: the scenario host (records at frames 10 and 12) accepts an attack
message with base_frame 10 and target_frame 999.  The tick prints the diagnostic and
leaves `client_attack_` as constructed and `is_client_attack_queued_ = false`; and when the
send is due on that tick, the outbound message carries `is_client_attacking = false` and
no outcome. -/
theorem C5_attack_dropped_on_history_miss :
    (scenarioHost.Update
      { HostInput.idle with received := some (scenarioAttackMessage 10 999 (1 / 2)) }).2 =
      { sent := none, printed := some (HostDiagnostic.target_not_found 10 999) } ∧
    (scenarioHost.Update
      { HostInput.idle with received := some (scenarioAttackMessage 10 999 (1 / 2)) }
      ).1.is_client_attack_queued_ = false ∧
    (scenarioHost.Update
      { HostInput.idle with received := some (scenarioAttackMessage 10 999 (1 / 2)) }
      ).1.client_attack_ = {} ∧
    (scenarioHostDue.Update
      { HostInput.idle with received := some (scenarioAttackMessage 10 999 (1 / 2)) }).2 =
      { sent := some [Field.u32 13, Field.f32 500, Field.f32 500, Field.f32 0, Field.f32 0,
          Field.f32 200, Field.f32 150, Field.f32 0, Field.f32 0, Field.bool false],
        printed := some (HostDiagnostic.target_not_found 10 999) } := by
  refine ⟨?_, ?_, ?_, ?_⟩
  all_goals
    simp [HostState.Update, HostState.Advance, HostState.Receive, HostState.ReadMessage,
      HostState.Send, scenarioHost, scenarioHostDue, scenarioAttackMessage, HostInput.idle,
      HostState.Create, ReadValue_u_long, ReadValue_bool, ReadValue_float, Packet.Fill,
      Packet.Reset, Packet.Sent, WriteValue_u_long, WriteValue_float, WriteValue_bool,
      WriteField, HostState.FindRecord, exampleRecord, exampleHostEnv, system_dt,
      kFrameModulus]
  all_goals norm_num

/-- C5, amended: when the base frame or the target frame of an accepted attack message has
no record in the history, `Update` completes, accepts frame number and pause flag, prints
the diagnostic that names the missing frame, and drops the attack: it emits the same
message and leaves the same state, `packet_` apart, as the tick that receives the same
message without attack; `client_attack_` and `local_hit_timer_secs_` stay as they were. -/
theorem C5_missing_history_drops_attack (E : HostEnv) (s : HostState E) (i : HostInput)
    (frame : Nat) (is_paused : Bool) (attack_x attack_y : ℚ) (attack_sync : SyncRatio)
    (hnew : frame > s.remote_frame_)
    (hmiss : HostState.FindRecord s.local_state_history_ attack_sync.base_frame = none ∨
      HostState.FindRecord s.local_state_history_ attack_sync.target_frame = none) :
    (s.Update { i with received := some (attackMessage frame is_paused attack_x attack_y attack_sync) }).2.sent =
      (s.Update { i with received := some (controlMessage frame is_paused) }).2.sent ∧
    { (s.Update { i with received := some (attackMessage frame is_paused attack_x attack_y attack_sync) }).1 with
      packet_ :=
        (s.Update { i with received := some (controlMessage frame is_paused) }).1.packet_ } =
      (s.Update { i with received := some (controlMessage frame is_paused) }).1 ∧
    (s.Update { i with received := some (attackMessage frame is_paused attack_x attack_y attack_sync) }).2.printed =
      some (if (HostState.FindRecord s.local_state_history_ attack_sync.base_frame).isNone
        then HostDiagnostic.base_not_found attack_sync.base_frame
        else HostDiagnostic.target_not_found attack_sync.base_frame
          attack_sync.target_frame) ∧
    (s.Update { i with received := some (attackMessage frame is_paused attack_x attack_y attack_sync) }).1.remote_frame_
      = frame ∧
    (s.Update { i with received := some (attackMessage frame is_paused attack_x attack_y attack_sync) }
      ).1.is_remote_paused_ = is_paused ∧
    (s.Update { i with received := some (attackMessage frame is_paused attack_x attack_y attack_sync) }).1.client_attack_
      = s.client_attack_ ∧
    (s.Update { i with received := some (attackMessage frame is_paused attack_x attack_y attack_sync) }
      ).1.local_hit_timer_secs_ = s.local_hit_timer_secs_ := by
  have hC := HostState.Receive_control (s.Advance { i with received := none }) frame
    is_paused hnew
  have hA' := HostState.Receive_attack_miss (s.Advance { i with received := none }) frame
    is_paused attack_x attack_y attack_sync hnew hmiss
  have hsend := HostState.Send_packet_irrelevant
    ((s.Advance { i with received := none }).Receive (some (controlMessage frame is_paused))).1
    { data := attackMessage frame is_paused attack_x attack_y attack_sync, used := 8 }
  have hpres := HostState.Send_preserves
    ({ ((s.Advance { i with received := none }).Receive
            (some (controlMessage frame is_paused))).1 with
          packet_ :=
            { data := attackMessage frame is_paused attack_x attack_y attack_sync, used := 8 } })
  have f1 : (s.Update { i with received := some (attackMessage frame is_paused attack_x attack_y attack_sync) }).1 =
      ((s.Advance { i with received := none }).Receive
        (some (attackMessage frame is_paused attack_x attack_y attack_sync))).1.Send.1 := rfl
  have f2 : (s.Update { i with received := some (controlMessage frame is_paused) }).1 =
      ((s.Advance { i with received := none }).Receive
        (some (controlMessage frame is_paused))).1.Send.1 := rfl
  have s1 : (s.Update { i with received := some (attackMessage frame is_paused attack_x attack_y attack_sync) }).2.sent =
      ((s.Advance { i with received := none }).Receive
        (some (attackMessage frame is_paused attack_x attack_y attack_sync))).1.Send.2 := rfl
  have s2 : (s.Update { i with received := some (controlMessage frame is_paused) }).2.sent =
      ((s.Advance { i with received := none }).Receive
        (some (controlMessage frame is_paused))).1.Send.2 := rfl
  have p1 : (s.Update { i with received := some (attackMessage frame is_paused attack_x attack_y attack_sync) }).2.printed =
      ((s.Advance { i with received := none }).Receive
        (some (attackMessage frame is_paused attack_x attack_y attack_sync))).2 := rfl
  rw [hA'] at f1 s1 p1
  rw [f1, f2, s1, s2, p1]
  refine ⟨hsend.1, hsend.2, rfl, ?_, ?_, ?_, ?_⟩
  · rw [hpres.1, hC]
  · rw [hpres.2.1, hC]
  · rw [hpres.2.2.1, hC]; rfl
  · rw [hpres.2.2.2, hC]; rfl

/-- C5 (amended) at the scenario of the specification: records at frames 10 and 12, a
request with base_frame 10 and target_frame 999. -/
theorem C5_missing_history_drops_attack_witness :
    (1 > scenarioHost.remote_frame_) ∧
    (HostState.FindRecord scenarioHost.local_state_history_ 10 = none ∨
      HostState.FindRecord scenarioHost.local_state_history_ 999 = none) ∧
    (scenarioHost.Update { HostInput.idle with received := some (attackMessage 1 false 150 100 ⟨10, 999, 1 / 2⟩) }).2.printed =
      some (if (HostState.FindRecord scenarioHost.local_state_history_ 10).isNone
        then HostDiagnostic.base_not_found 10
        else HostDiagnostic.target_not_found 10 999) ∧
    (scenarioHost.Update { HostInput.idle with received := some (attackMessage 1 false 150 100 ⟨10, 999, 1 / 2⟩) }).1.client_attack_ =
      scenarioHost.client_attack_ :=
  have hnew : 1 > scenarioHost.remote_frame_ := by simp [scenarioHost, HostState.Create]
  have hmiss : HostState.FindRecord scenarioHost.local_state_history_ 10 = none ∨
      HostState.FindRecord scenarioHost.local_state_history_ 999 = none :=
    Or.inr (by simp [HostState.FindRecord, scenarioHost, exampleRecord])
  have h := C5_missing_history_drops_attack exampleHostEnv scenarioHost HostInput.idle 1 false
    150 100 ⟨10, 999, 1 / 2⟩ hnew hmiss
  ⟨hnew, hmiss, h.2.2.1, h.2.2.2.2.2.1⟩

/-! ## Claims about the two sides together -/

/-- C7: what the client's send block writes is read back by the host's receive path.  For
a client message `msg` written with pause flag `is_paused` whose frame number is greater
than the host's `remote_frame_`: the host tick that receives it ends with
`remote_frame_ = frameOf msg` and `is_remote_paused_ = is_paused`; without a queued attack
the message has three fields, the host reads `is_attacking = false` and its cursor stops
after the third field; with a queued attack the message has eight fields and the host
reads the attack position and sync ratio held by `local_attack_`. -/
theorem C7_client_to_host_round_trip (EC : ClientEnv) (EH : HostEnv) (c : ClientState EC)
    (is_paused : Bool) (h : HostState EH) (i : HostInput) (msg : List Field)
    (hsent : (c.Send is_paused).2 = some msg) (hnew : frameOf msg > h.remote_frame_) :
    frameOf msg = (c.local_frame_ + 1) % kFrameModulus ∧
    (h.Update { i with received := some msg }).1.remote_frame_ = frameOf msg ∧
    (h.Update { i with received := some msg }).1.is_remote_paused_ = is_paused ∧
    (c.is_attack_queued_ = false →
      msg = [Field.u32 (frameOf msg), Field.bool is_paused, Field.bool false] ∧
      ∀ p : Packet, HostState.ReadMessage h.remote_frame_ (p.Reset.Fill msg) =
        (HostRead.control (frameOf msg) is_paused, { data := msg, used := 3 })) ∧
    (c.is_attack_queued_ = true →
      msg.length = 8 ∧
      ∀ p : Packet, HostState.ReadMessage h.remote_frame_ (p.Reset.Fill msg) =
        (HostRead.attack (frameOf msg) is_paused c.local_attack_.x_ c.local_attack_.y_
          c.local_attack_.sync_ratio_.base_frame c.local_attack_.sync_ratio_.target_frame
          c.local_attack_.sync_ratio_.t, { data := msg, used := 8 })) := by
  obtain ⟨hmsg, -⟩ := ClientState.client_Send_some c is_paused msg hsent
  have hpres := HostState.Send_preserves
    ((h.Advance { i with received := none }).Receive (some msg)).1
  have f1 : (h.Update { i with received := some msg }).1 =
      ((h.Advance { i with received := none }).Receive (some msg)).1.Send.1 := rfl
  have hr : (h.Advance { i with received := none }).remote_frame_ = h.remote_frame_ := rfl
  rw [f1, hpres.1, hpres.2.1]
  cases hq : c.is_attack_queued_ with
  | false =>
    rw [hq] at hmsg
    simp only [Bool.false_eq_true, if_false] at hmsg
    have hf : frameOf msg = (c.local_frame_ + 1) % kFrameModulus := by
      rw [hmsg]; simp [frameOf, controlMessage, ReadValue_u_long]
    rw [hf] at hnew ⊢
    rw [hmsg]
    rw [HostState.Receive_control _ _ _ (by rw [hr]; exact hnew)]
    refine ⟨rfl, rfl, rfl, fun _ => ⟨rfl, fun p => ?_⟩, fun hc => by cases hc⟩
    exact HostState.ReadMessage_control _ p _ _ hnew
  | true =>
    rw [hq] at hmsg
    simp only [if_true] at hmsg
    have hf : frameOf msg = (c.local_frame_ + 1) % kFrameModulus := by
      rw [hmsg]; simp [frameOf, attackMessage, ReadValue_u_long]
    rw [hf] at hnew ⊢
    rw [hmsg]
    obtain ⟨e1, e2⟩ := HostState.Receive_attack_accepts
      (h.Advance { i with received := none }) ((c.local_frame_ + 1) % kFrameModulus) is_paused
      c.local_attack_.x_ c.local_attack_.y_ c.local_attack_.sync_ratio_
      (by rw [hr]; exact hnew)
    refine ⟨rfl, e1, e2, fun hc => (by cases hc), fun _ => ⟨rfl, fun p => ?_⟩⟩
    exact HostState.ReadMessage_attack _ p _ _ _ _ _ hnew

/-- C7 at a concrete input: the client with a queued attack at (10,20) and sync ratio
`{5, 5, 0}` writes its first message; the constructed host receives it. -/
theorem C7_client_to_host_round_trip_witness :
    (queuedClient.Send false).2 = some (attackMessage 1 false 10 20 ⟨5, 5, 0⟩) ∧
    frameOf (attackMessage 1 false 10 20 ⟨5, 5, 0⟩)
      > (HostState.Create exampleHostEnv).remote_frame_ ∧
    ((HostState.Create exampleHostEnv).Update { HostInput.idle with received := some (attackMessage 1 false 10 20 ⟨5, 5, 0⟩) }).1.remote_frame_ =
      frameOf (attackMessage 1 false 10 20 ⟨5, 5, 0⟩) ∧
    ((HostState.Create exampleHostEnv).Update { HostInput.idle with received := some (attackMessage 1 false 10 20 ⟨5, 5, 0⟩) }).1.is_remote_paused_ = false :=
  have hsent : (queuedClient.Send false).2 = some (attackMessage 1 false 10 20 ⟨5, 5, 0⟩) := by
    simp [queuedClient, skewedClient, ClientInput.attack, ClientInput.idle,
      ClientState.Advance, ClientState.Prepare, ClientState.View, ClientState.Send, ClientState.Create,
      exampleClientEnv, recordingControl, lastKnown, Attack.Set, Attack.GetAttackX,
      Attack.GetAttackY, Attack.GetSyncRatio, Packet.Sent, Packet.Reset, WriteValue_u_long,
      WriteValue_float, WriteValue_bool, WriteField, attackMessage, system_dt, kFrameModulus]
  have hnew : frameOf (attackMessage 1 false 10 20 ⟨5, 5, 0⟩)
      > (HostState.Create exampleHostEnv).remote_frame_ := by
    simp [frameOf, attackMessage, ReadValue_u_long, HostState.Create]
  have h := C7_client_to_host_round_trip exampleClientEnv exampleHostEnv queuedClient false
    (HostState.Create exampleHostEnv) HostInput.idle _ hsent hnew
  ⟨hsent, hnew, h.2.1, h.2.2.1⟩

/-- C8, as stated, fails on the velocities: the host with its entity moving at (3,4) and
the client entity at (5,6) writes `hostMessageVelocity 3 4 5 6`; the client that accepts it
hands the simple and the snapshot controls of both entities exactly what it hands them for
the same message with all velocities 0, a position (and a delay) but no velocity; only the
dead-reckoning controls are given the velocities. -/
theorem C8_velocity_reaches_dead_reckoning_only :
    movingHost.Send.2 = some (hostMessageVelocity 3 4 5 6) ∧
    ((ClientState.Create exampleClientEnv).Update
      { ClientInput.idle with received := some (hostMessageVelocity 3 4 5 6) }
      ).1.simple_remote_control_ =
      [ControlCall.SetLastKnown 300 400 1, ControlCall.Update (1 / 30)] ∧
    ((ClientState.Create exampleClientEnv).Update
      { ClientInput.idle with received := some (hostMessageVelocity 0 0 0 0) }
      ).1.simple_remote_control_ =
      [ControlCall.SetLastKnown 300 400 1, ControlCall.Update (1 / 30)] ∧
    ((ClientState.Create exampleClientEnv).Update
      { ClientInput.idle with received := some (hostMessageVelocity 3 4 5 6) }
      ).1.snapshot_remote_control_ =
      [ControlCall.AddSnapshot ⟨300, 400, 1 / 30⟩ 1, ControlCall.Update (1 / 30)] ∧
    ((ClientState.Create exampleClientEnv).Update
      { ClientInput.idle with received := some (hostMessageVelocity 0 0 0 0) }
      ).1.snapshot_remote_control_ =
      [ControlCall.AddSnapshot ⟨300, 400, 1 / 30⟩ 1, ControlCall.Update (1 / 30)] ∧
    ((ClientState.Create exampleClientEnv).Update
      { ClientInput.idle with received := some (hostMessageVelocity 3 4 5 6) }
      ).1.simple_local_control_ =
      [ControlCall.SetLastKnown 10 20 1, ControlCall.Update (1 / 30)] ∧
    ((ClientState.Create exampleClientEnv).Update
      { ClientInput.idle with received := some (hostMessageVelocity 3 4 5 6) }
      ).1.snapshot_local_control_ =
      [ControlCall.AddSnapshot ⟨10, 20, 1 / 30⟩ 1, ControlCall.Update (1 / 30)] ∧
    ((ClientState.Create exampleClientEnv).Update
      { ClientInput.idle with received := some (hostMessageVelocity 3 4 5 6) }
      ).1.dr_remote_control_ =
      [ControlCall.SetLastKnownVelocity 300 400 3 4 (1 / 30) 1, ControlCall.Update (1 / 30)] := by
  refine ⟨?_, ?_, ?_, ?_, ?_, ?_, ?_, ?_⟩
  · simp [movingHost, HostState.Send, HostState.Create, exampleHostEnv, hostMessageVelocity,
      Packet.Sent, Packet.Reset, WriteValue_u_long, WriteValue_float, WriteValue_bool,
      WriteField, system_dt, kFrameModulus]
  all_goals
    simp [ClientState.Update, ClientState.Advance, ClientState.Prepare, ClientState.Receive, ClientState.ReadMessage,
      ClientState.Send, ClientState.StoreInControls, ClientState.View,
      ClientState.Create, ClientInput.idle, hostMessageVelocity, exampleClientEnv,
      recordingControl, ReadValue_u_long, ReadValue_bool, ReadValue_float, Packet.Fill,
      Packet.Reset, system_dt, kTimeBetweenClientSend_Secs, Player.SetPosition, lastKnown]

/-- C8, amended: for a message `msg` written by the host's send block and accepted by the
client, whichever control is active: each of the three controls of the host entity
(`*_remote_control_`) is handed the position of the host's own entity (the first two
floats), each of the three controls of the client entity (`*_local_control_`) the position
of the client entity (floats five and six); the velocities (floats three, four, seven and
eight) are handed to the dead-reckoning controls only, the receipt delay to the
dead-reckoning and snapshot controls; and the four confirmed-attack floats are read if and
only if the host had a client attack queued, with the values of the host's
`client_attack_`. -/
theorem C8_host_to_client_demultiplexing (EH : HostEnv) (EC : ClientEnv) (h : HostState EH)
    (msg : List Field) (hsent : h.Send.2 = some msg) (c : ClientState EC) (i : ClientInput)
    (hnew : frameOf msg > c.remote_frame_) :
    (c.Update { i with received := some msg }).1.remote_frame_ = frameOf msg ∧
    (c.Update { i with received := some msg }).1.simple_remote_control_ =
      EC.simple_SetLastKnown (EC.simple.Update c.simple_remote_control_ system_dt)
        (EH.GetCurrentX h.local_control_) (EH.GetCurrentY h.local_control_) (frameOf msg) ∧
    (c.Update { i with received := some msg }).1.dr_remote_control_ =
      EC.dr_SetLastKnown (EC.dr.Update c.dr_remote_control_ system_dt)
        (EH.GetCurrentX h.local_control_) (EH.GetCurrentY h.local_control_)
        (EH.GetCurrentVelocityX h.local_control_) (EH.GetCurrentVelocityY h.local_control_)
        (c.time_since_last_recv_ + system_dt) (frameOf msg) ∧
    (c.Update { i with received := some msg }).1.snapshot_remote_control_ =
      EC.snapshot_AddSnapshot (EC.snapshot.Update c.snapshot_remote_control_ system_dt)
        ⟨EH.GetCurrentX h.local_control_, EH.GetCurrentY h.local_control_,
          c.time_since_last_recv_ + system_dt⟩ (frameOf msg) ∧
    (c.Update { i with received := some msg }).1.simple_local_control_ =
      EC.simple_SetLastKnown (EC.simple.Update c.simple_local_control_ system_dt)
        (EH.GetCurrentX h.remote_control_) (EH.GetCurrentY h.remote_control_) (frameOf msg) ∧
    (c.Update { i with received := some msg }).1.dr_local_control_ =
      EC.dr_SetLastKnown (EC.dr.Update c.dr_local_control_ system_dt)
        (EH.GetCurrentX h.remote_control_) (EH.GetCurrentY h.remote_control_)
        (EH.GetCurrentVelocityX h.remote_control_) (EH.GetCurrentVelocityY h.remote_control_)
        (c.time_since_last_recv_ + system_dt) (frameOf msg) ∧
    (c.Update { i with received := some msg }).1.snapshot_local_control_ =
      EC.snapshot_AddSnapshot (EC.snapshot.Update c.snapshot_local_control_ system_dt)
        ⟨EH.GetCurrentX h.remote_control_, EH.GetCurrentY h.remote_control_,
          c.time_since_last_recv_ + system_dt⟩ (frameOf msg) ∧
    (h.is_client_attack_queued_ = false →
      msg.length = 10 ∧
      (c.Update { i with received := some msg }).1.remote_confirmed_attack_ = c.remote_confirmed_attack_ ∧
      ∀ p : Packet, ClientState.ReadMessage c.remote_frame_ (p.Reset.Fill msg) =
        (ClientRead.update (frameOf msg)
          (EH.GetCurrentX h.local_control_) (EH.GetCurrentY h.local_control_)
          (EH.GetCurrentVelocityX h.local_control_) (EH.GetCurrentVelocityY h.local_control_)
          (EH.GetCurrentX h.remote_control_) (EH.GetCurrentY h.remote_control_)
          (EH.GetCurrentVelocityX h.remote_control_) (EH.GetCurrentVelocityY h.remote_control_),
         { data := msg, used := 10 })) ∧
    (h.is_client_attack_queued_ = true →
      msg.length = 14 ∧
      (c.Update { i with received := some msg }).1.remote_confirmed_attack_ =
        c.remote_confirmed_attack_.Set h.client_attack_.x_ h.client_attack_.y_
          h.client_attack_.target_x_ h.client_attack_.target_y_ SyncRatio.zero ∧
      ∀ p : Packet, ClientState.ReadMessage c.remote_frame_ (p.Reset.Fill msg) =
        (ClientRead.confirmed (frameOf msg)
          (EH.GetCurrentX h.local_control_) (EH.GetCurrentY h.local_control_)
          (EH.GetCurrentVelocityX h.local_control_) (EH.GetCurrentVelocityY h.local_control_)
          (EH.GetCurrentX h.remote_control_) (EH.GetCurrentY h.remote_control_)
          (EH.GetCurrentVelocityX h.remote_control_) (EH.GetCurrentVelocityY h.remote_control_)
          h.client_attack_.x_ h.client_attack_.y_ h.client_attack_.target_x_
          h.client_attack_.target_y_,
         { data := msg, used := 14 })) := by
  have hmsg := HostState.Send_fields h msg hsent
  obtain ⟨a1, -, -, a4⟩ := ClientState.client_Advance_preserves c
    { i with received := none }
  obtain ⟨b1, b2, b3, b4, b5, b6, b7, -⟩ := ClientState.client_Advance_controls c
    { i with received := none }
  obtain ⟨p1, p2, p3, p4, p5, p6, p7, p8, -⟩ := ClientState.client_Send_preserves
    ((c.Advance { i with received := none }).Receive (some msg)) i.key_SPACE_down
  have f1 : (c.Update { i with received := some msg }).1 =
      (((c.Advance { i with received := none }).Receive (some msg)).Send
        i.key_SPACE_down).1 := rfl
  rw [f1, p1, p2, p3, p4, p5, p6, p7, p8]
  cases hq : h.is_client_attack_queued_ with
  | false =>
    rw [hq] at hmsg
    simp only [Bool.false_eq_true, if_false, List.append_nil] at hmsg
    have hf : frameOf msg = (h.local_frame_ + 1) % kFrameModulus := by
      rw [hmsg]; simp [frameOf, ReadValue_u_long]
    rw [hf] at hnew ⊢
    rw [hmsg, ClientState.client_Receive_update _ _ _ _ _ _ _ _ _ _ (by rw [a1]; exact hnew)]
    refine ⟨?_, ?_, ?_, ?_, ?_, ?_, ?_, fun _ => ⟨rfl, ?_, fun p => ?_⟩,
      fun hc => (by cases hc)⟩
    iterate 8 simp [ClientState.StoreInControls, a4, b1, b2, b3, b4, b5, b6, b7]
    exact ClientState.ReadMessage_update _ p _ _ _ _ _ _ _ _ _ hnew
  | true =>
    rw [hq] at hmsg
    simp only [if_true, List.cons_append, List.nil_append] at hmsg
    have hf : frameOf msg = (h.local_frame_ + 1) % kFrameModulus := by
      rw [hmsg]; simp [frameOf, ReadValue_u_long]
    rw [hf] at hnew ⊢
    rw [hmsg, ClientState.client_Receive_confirmed _ _ _ _ _ _ _ _ _ _ _ _ _ _
      (by rw [a1]; exact hnew)]
    refine ⟨?_, ?_, ?_, ?_, ?_, ?_, ?_, fun hc => (by cases hc),
      fun _ => ⟨rfl, ?_, fun p => ?_⟩⟩
    iterate 8 simp [ClientState.StoreInControls, a4, b1, b2, b3, b4, b5, b6, b7]
    exact ClientState.ReadMessage_confirmed _ p _ _ _ _ _ _ _ _ _ _ _ _ _ hnew

/-- C8 (amended) at a concrete input: the message of the moving host, accepted by the
client of `skewedClient` under the snapshot setting. -/
theorem C8_host_to_client_demultiplexing_witness :
    movingHost.Send.2 = some (hostMessageVelocity 3 4 5 6) ∧
    frameOf (hostMessageVelocity 3 4 5 6) > (skewedClient Active_Control.Snapshot).remote_frame_ ∧
    ((skewedClient Active_Control.Snapshot).Update
      { ClientInput.idle with received := some (hostMessageVelocity 3 4 5 6) }
      ).1.simple_remote_control_ =
      exampleClientEnv.simple_SetLastKnown
        (exampleClientEnv.simple.Update
          (skewedClient Active_Control.Snapshot).simple_remote_control_ system_dt)
        (exampleHostEnv.GetCurrentX movingHost.local_control_)
        (exampleHostEnv.GetCurrentY movingHost.local_control_)
        (frameOf (hostMessageVelocity 3 4 5 6)) ∧
    ((skewedClient Active_Control.Snapshot).Update
      { ClientInput.idle with received := some (hostMessageVelocity 3 4 5 6) }
      ).1.dr_local_control_ =
      exampleClientEnv.dr_SetLastKnown
        (exampleClientEnv.dr.Update
          (skewedClient Active_Control.Snapshot).dr_local_control_ system_dt)
        (exampleHostEnv.GetCurrentX movingHost.remote_control_)
        (exampleHostEnv.GetCurrentY movingHost.remote_control_)
        (exampleHostEnv.GetCurrentVelocityX movingHost.remote_control_)
        (exampleHostEnv.GetCurrentVelocityY movingHost.remote_control_)
        ((skewedClient Active_Control.Snapshot).time_since_last_recv_ + system_dt)
        (frameOf (hostMessageVelocity 3 4 5 6)) :=
  have hsent : movingHost.Send.2 = some (hostMessageVelocity 3 4 5 6) := by
    simp [movingHost, HostState.Send, HostState.Create, exampleHostEnv, hostMessageVelocity,
      Packet.Sent, Packet.Reset, WriteValue_u_long, WriteValue_float, WriteValue_bool,
      WriteField, system_dt, kFrameModulus]
  have hnew : frameOf (hostMessageVelocity 3 4 5 6)
      > (skewedClient Active_Control.Snapshot).remote_frame_ := by
    simp [frameOf, hostMessageVelocity, ReadValue_u_long, skewedClient, ClientState.Create]
  have h := C8_host_to_client_demultiplexing exampleHostEnv exampleClientEnv movingHost _ hsent
    (skewedClient Active_Control.Snapshot) ClientInput.idle hnew
  ⟨hsent, hnew, h.2.1, h.2.2.2.2.2.1⟩

/-! ## Claims about the client -/

/-- C4, as stated, fails on the receipt-delay accumulator: the constructed example client
receives a message numbered 0 (not newer than `remote_frame_ = 0`); the tick leaves
`time_since_last_recv_ = 0`, the tick without a message leaves `1/30`; and the newer
message accepted on the following tick is handed to the dead-reckoning control of the
host entity with delay `1/30` after the stale message and `2/30` without it. -/
theorem C4_stale_message_resets_receipt_delay :
    frameOf (hostMessage 0) ≤ (ClientState.Create exampleClientEnv).remote_frame_ ∧
    ((ClientState.Create exampleClientEnv).Update
      { ClientInput.idle with received := some (hostMessage 0) }).1.time_since_last_recv_ = 0 ∧
    ((ClientState.Create exampleClientEnv).Update
      { ClientInput.idle with received := none }).1.time_since_last_recv_ = 1 / 30 ∧
    (((ClientState.Create exampleClientEnv).Update
        { ClientInput.idle with received := some (hostMessage 0) }).1.Update
      { ClientInput.idle with received := some (hostMessage 1) }).1.dr_remote_control_ =
      [ControlCall.SetLastKnownVelocity 300 400 3 4 (1 / 30) 1,
       ControlCall.Update (1 / 30), ControlCall.Update (1 / 30)] ∧
    (((ClientState.Create exampleClientEnv).Update
        { ClientInput.idle with received := none }).1.Update
      { ClientInput.idle with received := some (hostMessage 1) }).1.dr_remote_control_ =
      [ControlCall.SetLastKnownVelocity 300 400 3 4 (2 / 30) 1,
       ControlCall.Update (1 / 30), ControlCall.Update (1 / 30)] := by
  refine ⟨?_, ?_, ?_, ?_, ?_⟩
  · simp [frameOf, ReadValue_u_long, hostMessage, ClientState.Create]
  all_goals
    simp [ClientState.Update, ClientState.Advance, ClientState.Prepare, ClientState.Receive, ClientState.ReadMessage,
      ClientState.Send, ClientState.StoreInControls, ClientState.View,
      ClientState.Create, ClientInput.idle, hostMessage, exampleClientEnv, recordingControl,
      ReadValue_u_long, ReadValue_bool, ReadValue_float, Packet.Fill, Packet.Reset, system_dt,
      kTimeBetweenClientSend_Secs, Player.SetPosition, lastKnown]
  all_goals norm_num

/-- C4, amended: a host message whose frame number is not greater than `remote_frame_`
changes nothing but the content of the receive buffer and the receipt-delay accumulator:
the tick emits the same output and leaves the same state, `packet_` and
`time_since_last_recv_` apart, as the tick in which `recv` delivers nothing; and it leaves
`time_since_last_recv_ = 0`. -/
theorem C4_client_stale_message_discarded (E : ClientEnv) (s : ClientState E)
    (i : ClientInput) (fields : List Field) (hstale : frameOf fields ≤ s.remote_frame_) :
    (s.Update { i with received := some fields }).2 =
      (s.Update { i with received := none }).2 ∧
    { (s.Update { i with received := some fields }).1 with
        packet_ := (s.Update { i with received := none }).1.packet_
        time_since_last_recv_ :=
          (s.Update { i with received := none }).1.time_since_last_recv_ } =
      (s.Update { i with received := none }).1 ∧
    (s.Update { i with received := some fields }).1.time_since_last_recv_ = 0 := by
  obtain ⟨p, hp⟩ :=
    ClientState.client_Receive_stale (s.Advance { i with received := none }) fields
      (by rw [(ClientState.client_Advance_preserves s _).1]; exact hstale)
  have hsend := ClientState.client_Send_irrelevant
    ((s.Advance { i with received := none }).Receive none) i.key_SPACE_down p 0
  have f1 : s.Update { i with received := some fields } =
      ((s.Advance { i with received := none }).Receive (some fields)).Send i.key_SPACE_down := rfl
  have f2 : s.Update { i with received := none } =
      ((s.Advance { i with received := none }).Receive none).Send i.key_SPACE_down := rfl
  rw [hp] at f1
  rw [f1, f2]
  exact hsend

/-- C4 (amended) at a concrete input: the constructed example client receives a message
numbered 0. -/
theorem C4_client_stale_message_discarded_witness :
    frameOf (hostMessage 0) ≤ (ClientState.Create exampleClientEnv).remote_frame_ ∧
    ((ClientState.Create exampleClientEnv).Update
        { ClientInput.idle with received := some (hostMessage 0) }).2 =
      ((ClientState.Create exampleClientEnv).Update
        { ClientInput.idle with received := none }).2 ∧
    { ((ClientState.Create exampleClientEnv).Update
        { ClientInput.idle with received := some (hostMessage 0) }).1 with
        packet_ := ((ClientState.Create exampleClientEnv).Update
          { ClientInput.idle with received := none }).1.packet_
        time_since_last_recv_ := ((ClientState.Create exampleClientEnv).Update
          { ClientInput.idle with received := none }).1.time_since_last_recv_ } =
      ((ClientState.Create exampleClientEnv).Update
        { ClientInput.idle with received := none }).1 ∧
    ((ClientState.Create exampleClientEnv).Update
      { ClientInput.idle with received := some (hostMessage 0) }).1.time_since_last_recv_ = 0 :=
  have h : frameOf (hostMessage 0) ≤ (ClientState.Create exampleClientEnv).remote_frame_ := by
    simp [frameOf, ReadValue_u_long, hostMessage, ClientState.Create]
  ⟨h, C4_client_stale_message_discarded exampleClientEnv (ClientState.Create exampleClientEnv)
    ClientInput.idle _ h⟩

/-- The first tick of the constructed host sends frame number 1. -/
theorem host_first_tick (E : HostEnv) (i : HostInput) :
    ((HostState.Create E).Update i).2.sent.map frameOf = some 1 := by
  have htimer : (((HostState.Create E).Advance i).Receive i.received).1.send_timer_secs_ = 0 := by
    rw [(HostState.Receive_preserves _ _).2.2.1]
    simp [HostState.Advance, HostState.Create]
  have hsome := HostState.Send_isSome (((HostState.Create E).Advance i).Receive i.received).1
  rw [htimer] at hsome
  rcases HostState.Update_step (HostState.Create E) i with ⟨hs, -⟩ | ⟨msg, hs, hm, -⟩
  · rw [HostState.Update_sent] at hs
    rw [hs] at hsome
    norm_num [system_dt] at hsome
  · rw [hs, Option.map_some', hm]
    rfl

/-- The first tick of the constructed client sends frame number 1. -/
theorem client_first_tick (E : ClientEnv) (i : ClientInput) :
    ((ClientState.Create E).Update i).2.map frameOf = some 1 := by
  have htimer : (((ClientState.Create E).Advance i).Receive i.received).send_timer_secs_ = 0 := by
    rw [(ClientState.client_Receive_preserves _ _).2.1,
      (ClientState.client_Advance_preserves _ _).2.2.1]
    rfl
  have hsome := ClientState.client_Send_isSome
    (((ClientState.Create E).Advance i).Receive i.received) i.key_SPACE_down
  rw [htimer] at hsome
  rcases ClientState.Step_frames (ClientState.Create E) (ClientEvent.update i) with
    ⟨hs, -⟩ | ⟨msg, hs, hm, -⟩
  · have hs' : ((((ClientState.Create E).Advance i).Receive i.received).Send
        i.key_SPACE_down).2 = none := hs
    rw [hs'] at hsome
    norm_num [system_dt] at hsome
  · have hs' : ((ClientState.Create E).Update i).2 = some msg := hs
    rw [hs', Option.map_some', hm]
    rfl

/-- C9, as stated, fails when the 32-bit counter wraps: the constructed example host, whose
send target is 0, sends on every tick; its first tick sends frame number 1, and the tick
after 4294967295 ticks sends frame number 0. -/
theorem C9_frame_number_wraps_to_zero :
    ((HostState.Create exampleHostEnv).Update HostInput.idle).2.sent.map frameOf = some 1 ∧
    (((HostState.Create exampleHostEnv).Run
        (List.replicate 4294967295 HostInput.idle)).Update HostInput.idle).2.sent.map frameOf
      = some 0 := by
  refine ⟨host_first_tick exampleHostEnv HostInput.idle, ?_⟩
  obtain ⟨-, hlf, htimer⟩ := HostState.Run_idle 4294967295 (HostState.Create exampleHostEnv)
    (by simp [HostState.Create, kFrameModulus]) (le_of_eq rfl) rfl
  have h0 : (HostState.Create exampleHostEnv).local_frame_ = 0 := rfl
  rw [h0] at hlf
  generalize (HostState.Create exampleHostEnv).Run (List.replicate 4294967295 HostInput.idle)
    = s at hlf htimer ⊢
  obtain ⟨⟨msg, hs, hm⟩, -⟩ := HostState.Update_idle s htimer
  rw [hs, Option.map_some', hm, hlf]
  norm_num [kFrameModulus]

/-- C9, amended: in every run of a host or a client from its constructed state that sends
fewer than `2^32` messages, the frame numbers of the outbound messages are 1, 2, 3, ... in
this order, each the successor of the one before and greater than all sent before; the
first tick sends frame number 1; and a tick that sends nothing leaves `local_frame_` as it
is. -/
theorem C9_frame_numbers_increase_until_wrap (EH : HostEnv) (EC : ClientEnv)
    (ins : List HostInput) (events : List ClientEvent)
    (hh : ((HostState.Create EH).Sent ins).length < kFrameModulus)
    (hc : ((ClientState.Create EC).Sent events).length < kFrameModulus) :
    (HostState.Create EH).SentFrames ins
      = List.range' 1 ((HostState.Create EH).Sent ins).length ∧
    (ClientState.Create EC).SentFrames events
      = List.range' 1 ((ClientState.Create EC).Sent events).length ∧
    ((HostState.Create EH).SentFrames ins).Pairwise (fun a b => a < b) ∧
    ((ClientState.Create EC).SentFrames events).Pairwise (fun a b => a < b) ∧
    (∀ i : HostInput, ((HostState.Create EH).Update i).2.sent.map frameOf = some 1) ∧
    (∀ i : ClientInput, ((ClientState.Create EC).Update i).2.map frameOf = some 1) ∧
    (∀ (s : HostState EH) (i : HostInput),
      (s.Update i).2.sent = none → (s.Update i).1.local_frame_ = s.local_frame_) ∧
    (∀ (s : ClientState EC) (i : ClientInput),
      (s.Update i).2 = none → (s.Update i).1.local_frame_ = s.local_frame_) := by
  have e1 : (HostState.Create EH).SentFrames ins
      = List.range' 1 ((HostState.Create EH).Sent ins).length := by
    rw [HostState.SentFrames_eq]
    exact map_mod_range' _ hh
  have e2 : (ClientState.Create EC).SentFrames events
      = List.range' 1 ((ClientState.Create EC).Sent events).length := by
    rw [ClientState.client_SentFrames_eq]
    exact map_mod_range' _ hc
  refine ⟨e1, e2, ?_, ?_, host_first_tick EH, client_first_tick EC, ?_, ?_⟩
  · rw [e1]; exact List.pairwise_lt_range' 1 _
  · rw [e2]; exact List.pairwise_lt_range' 1 _
  · intro s i hs
    rcases HostState.Update_step s i with ⟨-, hf, -⟩ | ⟨msg, hs', -⟩
    · exact hf
    · rw [hs] at hs'; cases hs'
  · intro s i hs
    rcases ClientState.Step_frames s (ClientEvent.update i) with ⟨-, hf⟩ | ⟨msg, hs', -⟩
    · exact hf
    · have hs'' : (s.Update i).2 = some msg := hs'
      rw [hs] at hs''; cases hs''

/-- C9 (amended) at concrete runs: five idle ticks of the example host, and an update, a
draw and an update with the attack key on the example client. -/
theorem C9_frame_numbers_increase_until_wrap_witness :
    ((HostState.Create exampleHostEnv).Sent (List.replicate 5 HostInput.idle)).length
      < kFrameModulus ∧
    ((ClientState.Create exampleClientEnv).Sent
      [ClientEvent.update ClientInput.idle, ClientEvent.draw (1 / 30),
       ClientEvent.update ClientInput.attack]).length < kFrameModulus ∧
    (HostState.Create exampleHostEnv).SentFrames (List.replicate 5 HostInput.idle)
      = List.range' 1
        ((HostState.Create exampleHostEnv).Sent (List.replicate 5 HostInput.idle)).length ∧
    (ClientState.Create exampleClientEnv).SentFrames
      [ClientEvent.update ClientInput.idle, ClientEvent.draw (1 / 30),
       ClientEvent.update ClientInput.attack]
      = List.range' 1 ((ClientState.Create exampleClientEnv).Sent
        [ClientEvent.update ClientInput.idle, ClientEvent.draw (1 / 30),
         ClientEvent.update ClientInput.attack]).length :=
  have hh : ((HostState.Create exampleHostEnv).Sent (List.replicate 5 HostInput.idle)).length
      < kFrameModulus :=
    lt_of_le_of_lt (HostState.Sent_length_le _ _) (by simp [kFrameModulus])
  have hc : ((ClientState.Create exampleClientEnv).Sent
      [ClientEvent.update ClientInput.idle, ClientEvent.draw (1 / 30),
       ClientEvent.update ClientInput.attack]).length < kFrameModulus :=
    lt_of_le_of_lt (ClientState.client_Sent_length_le _ _) (by simp [kFrameModulus])
  have h := C9_frame_numbers_increase_until_wrap exampleHostEnv exampleClientEnv
    (List.replicate 5 HostInput.idle)
    [ClientEvent.update ClientInput.idle, ClientEvent.draw (1 / 30),
     ClientEvent.update ClientInput.attack] hh hc
  ⟨hh, hc, h.1, h.2.1⟩

/-- C10: an attack triggered on a tick is transmitted exactly once, with the values
captured at the trigger.  When key F is triggered on a tick and not again during the calls
that follow (`Update`s with any input and any inbound message, `Draw`s), then the first
message sent from that tick on, if one is sent, has `is_attacking = true` and carries the
attack position and the sync ratio that `Attack::Set` stored on the trigger tick, and every
later message has `is_attacking = false`; the stored attack is the `Set` of the locals of
the trigger tick; and every tick that sends leaves `is_attack_queued_ = false`. -/
theorem C10_attack_sent_once_with_captured_values (E : ClientEnv) (s : ClientState E)
    (i : ClientInput) (rest : List ClientEvent) (htrig : i.key_F_triggered = true)
    (hquiet : ∀ e ∈ rest, e.triggers = false) :
    (s.Advance i).local_attack_ =
      s.local_attack_.Set (s.Prepare i).View.local_x (s.Prepare i).View.local_y
        (s.Prepare i).View.remote_x (s.Prepare i).View.remote_y
        (s.Prepare i).View.current_sync ∧
    (s.Sent (ClientEvent.update i :: rest) = [] ∨
      ∃ f p later,
        s.Sent (ClientEvent.update i :: rest) =
          attackMessage f p (s.Prepare i).View.local_x (s.Prepare i).View.local_y
            (s.Prepare i).View.current_sync :: later ∧
        ∀ msg ∈ later, ∃ f' p', msg = controlMessage f' p') ∧
    (∀ (t : ClientState E) (j : ClientInput) (msg : List Field),
      (t.Update j).2 = some msg → (t.Update j).1.is_attack_queued_ = false) := by
  have hset : (s.Advance i).local_attack_ =
      s.local_attack_.Set (s.Prepare i).View.local_x (s.Prepare i).View.local_y
        (s.Prepare i).View.remote_x (s.Prepare i).View.remote_y
        (s.Prepare i).View.current_sync := by
    have hp : (s.Prepare i).local_attack_ = s.local_attack_ := by
      unfold ClientState.Prepare
      cases i.key_D_triggered <;> cases i.key_A_triggered <;> rfl
    unfold ClientState.Advance
    simp only [htrig, if_true]
    rw [hp]
  have hq := ClientState.client_Advance_trigger s i htrig
  refine ⟨hset, ?_, ?_⟩
  · rcases ClientState.Receive_Send (s.Advance i) i.received i.key_SPACE_down with
      ⟨h1, -, h3, h4⟩ | ⟨msg, h1, h2, -, h4, -⟩
    · have hstep : (s.Step (ClientEvent.update i)).2 = none := h1
      rw [ClientState.client_Sent_cons_none s _ rest hstep]
      have hst : (s.Step (ClientEvent.update i)).1 =
          (((s.Advance i).Receive i.received).Send i.key_SPACE_down).1 := rfl
      refine ClientState.Sent_quiet_queued _ rest ?_ hquiet _ _ _ ?_ ?_ ?_
      · rw [hst, h3]; exact hq
      · rw [hst, h4, hset]; rfl
      · rw [hst, h4, hset]; rfl
      · rw [hst, h4, hset]; rfl
    · right
      have hstep : (s.Step (ClientEvent.update i)).2 = some msg := h1
      rw [ClientState.client_Sent_cons_some s _ rest msg hstep]
      rw [hq, hset] at h2
      simp only [if_true] at h2
      exact ⟨_, _, _, by rw [h2]; rfl, ClientState.Sent_quiet_unqueued _ rest h4 hquiet⟩
  · intro t j msg hmsg
    rcases ClientState.Receive_Send (t.Advance j) j.received j.key_SPACE_down with
      ⟨h1, -⟩ | ⟨m, -, -, -, h4, -⟩
    · rw [ClientState.Update_eq] at hmsg; rw [h1] at hmsg; cases hmsg
    · exact h4

/-- C10 at a concrete run: key F on the armed client, whose simple controls show the client
entity at (10,20) with sync ratio `{5, 5, 0}`; then a control switch with an accepted host
message, a draw and idle ticks.  The fourth `Update` after the trigger sends the attack
with the captured values, the eighth sends a message without attack. -/
theorem C10_attack_sent_once_with_captured_values_witness :
    ClientInput.attack.key_F_triggered = true ∧
    (∀ e ∈ quietEvents, e.triggers = false) ∧
    armedClient.Sent (ClientEvent.update ClientInput.attack :: quietEvents) =
      [attackMessage 2 false 10 20 ⟨5, 5, 0⟩, controlMessage 3 false] ∧
    (armedClient.Sent (ClientEvent.update ClientInput.attack :: quietEvents) = [] ∨
      ∃ f p later,
        armedClient.Sent (ClientEvent.update ClientInput.attack :: quietEvents) =
          attackMessage f p (armedClient.Prepare ClientInput.attack).View.local_x
            (armedClient.Prepare ClientInput.attack).View.local_y
            (armedClient.Prepare ClientInput.attack).View.current_sync :: later ∧
        ∀ msg ∈ later, ∃ f' p', msg = controlMessage f' p') :=
  have htrig : ClientInput.attack.key_F_triggered = true := rfl
  have hquiet : ∀ e ∈ quietEvents, e.triggers = false := by
    intro e he
    simp only [quietEvents, List.mem_cons, List.mem_singleton, List.not_mem_nil, or_false] at he
    rcases he with rfl | rfl | rfl | rfl | rfl | rfl | rfl | rfl <;> rfl
  have hrun : armedClient.Sent (ClientEvent.update ClientInput.attack :: quietEvents) =
      [attackMessage 2 false 10 20 ⟨5, 5, 0⟩, controlMessage 3 false] := by
    simp [ClientState.Sent, ClientState.Step, ClientState.Draw, quietEvents, armedClient,
      ClientState.Update, ClientState.Advance, ClientState.Prepare, ClientState.Receive,
      ClientState.ReadMessage, ClientState.Send, ClientState.StoreInControls, ClientState.View,
      skewedClient, ClientState.Create, ClientInput.idle, ClientInput.attack, hostMessage,
      exampleClientEnv, recordingControl, lastKnown, Attack.Set, Attack.Draw, Attack.IsVisible,
      Attack.GetAttackX, Attack.GetAttackY, Attack.GetSyncRatio,
      ReadValue_u_long, ReadValue_bool, ReadValue_float, WriteValue_u_long, WriteValue_float,
      WriteValue_bool, WriteField, Packet.Fill, Packet.Reset, Packet.Sent, system_dt,
      kTimeBetweenClientSend_Secs, kFrameModulus, attackMessage, controlMessage]
    norm_num
  ⟨htrig, hquiet, hrun,
    (C10_attack_sent_once_with_captured_values exampleClientEnv armedClient ClientInput.attack
      quietEvents htrig hquiet).2.1⟩

/-! ## Claims about the lifetime of an attack and the window of the history -/

/-- An invisible attack is left as it is by `Draw`. -/
theorem Draw_invisible (b : Attack) (draw_attack draw_target : Bool)
    (h : b.IsVisible = false) : b.Draw draw_attack draw_target = b := by
  simp [Attack.Draw, h]

/-- An invisible attack is left as it is by any number of `Draw` calls. -/
theorem Draws_invisible (b : Attack) (calls : List (Bool × Bool)) (h : b.IsVisible = false) :
    b.Draws calls = b := by
  induction calls with
  | nil => rfl
  | cons call rest ih =>
    unfold Attack.Draws at ih ⊢
    rw [List.foldl_cons, Draw_invisible b call.1 call.2 h]
    exact ih

/-- From an odd positive `alpha_ = 2 j + 1` each `Draw` takes 2 off until `j + 1` calls
have been made; the fields other than `alpha_` stay. -/
theorem Draws_alpha (j : Nat) (a : Attack) (calls : List (Bool × Bool))
    (h : a.alpha_ = 2 * (j : Int) + 1) :
    a.Draws calls = { a with alpha_ := a.alpha_ - 2 * (min calls.length (j + 1) : Nat) } := by
  induction calls generalizing a j with
  | nil => simp [Attack.Draws]
  | cons call rest ih =>
    have hvis : a.IsVisible = true := by
      simp only [Attack.IsVisible, decide_eq_true_eq, h]; omega
    have hdraw : a.Draw call.1 call.2 = { a with alpha_ := a.alpha_ - 2 } := by
      simp [Attack.Draw, hvis]
    have hcons : a.Draws (call :: rest) = (a.Draw call.1 call.2).Draws rest := rfl
    rw [hcons, hdraw]
    cases j with
    | zero =>
      rw [Draws_invisible]
      · have hmin : min (call :: rest).length (0 + 1) = 1 := by
          simp only [List.length_cons]; omega
        rw [hmin]; rfl
      · simp only [Attack.IsVisible, decide_eq_false_iff_not, h]; omega
    | succ j' =>
      rw [ih j' _ (by simp only [h]; push_cast; ring)]
      have hmin : ((min (call :: rest).length (j' + 1 + 1) : Nat) : Int)
          = (min rest.length (j' + 1) : Nat) + 1 := by
        simp only [List.length_cons]; omega
      rw [hmin]
      simp only [Attack.mk.injEq, true_and, and_true]
      ring

/-- C11: an attack is visible for a fixed number of `Draw` calls.  A default-constructed
attack is not visible; right after `Set` it is visible; after `k` further `Draw` calls
(with any arguments, no `Set` in between) it is visible if and only if `k ≤ 127`, its
`alpha_` being `255 - 2 * min k 128` and all other fields as `Set` left them, so that the
128th `Draw` is the last one that finds it visible; and an invisible attack is left
unchanged, `alpha_` included, by every `Draw`, hence stays invisible. -/
theorem C11_attack_lifetime (a : Attack) (attack_x attack_y target_x target_y : ℚ)
    (attack_sync : SyncRatio) (calls : List (Bool × Bool)) (b : Attack)
    (draw_attack draw_target : Bool) (hinvisible : b.IsVisible = false) :
    ({} : Attack).IsVisible = false ∧
    (a.Set attack_x attack_y target_x target_y attack_sync).IsVisible = true ∧
    ((a.Set attack_x attack_y target_x target_y attack_sync).Draws calls).IsVisible
      = decide (calls.length ≤ 127) ∧
    (a.Set attack_x attack_y target_x target_y attack_sync).Draws calls =
      { a.Set attack_x attack_y target_x target_y attack_sync with
        alpha_ := 255 - 2 * (min calls.length 128 : Nat) } ∧
    b.Draw draw_attack draw_target = b ∧
    (b.Draw draw_attack draw_target).IsVisible = false ∧
    b.Draws calls = b := by
  have hd := Draws_alpha 127 (a.Set attack_x attack_y target_x target_y attack_sync) calls
    (by simp [Attack.Set])
  have hb := Draw_invisible b draw_attack draw_target hinvisible
  refine ⟨by simp [Attack.IsVisible], by simp [Attack.IsVisible, Attack.Set], ?_, ?_,
    hb, by rw [hb]; exact hinvisible, Draws_invisible b calls hinvisible⟩
  · rw [hd]
    simp only [Attack.IsVisible, Attack.Set]
    by_cases hk : calls.length ≤ 127
    · simp only [hk, decide_True, decide_eq_true_eq]; omega
    · simp only [hk, decide_False, decide_eq_false_iff_not]; omega
  · rw [hd]; rfl

/-- C11 at a concrete input: an attack set at (150,100) against (200,100) and drawn 128
times, and the default-constructed attack as the invisible one. -/
theorem C11_attack_lifetime_witness :
    ({} : Attack).IsVisible = false ∧
    ((({} : Attack).Set 150 100 200 100 ⟨10, 12, 1 / 2⟩).Draws
      (List.replicate 128 (true, true))).IsVisible = decide
        ((List.replicate 128 (true, true)).length ≤ 127) ∧
    ({} : Attack).Draw true true = {} :=
  have hinv : ({} : Attack).IsVisible = false := by simp [Attack.IsVisible]
  have h := C11_attack_lifetime {} 150 100 200 100 ⟨10, 12, 1 / 2⟩
    (List.replicate 128 (true, true)) {} true true hinv
  ⟨hinv, h.2.2.1, h.2.2.2.2.1⟩

/-- The newest 100 of the numbers 1, ..., n are the numbers from `n + 1 - min n 100` on. -/
theorem drop_range'_newest (n : Nat) :
    (List.range' 1 n).drop (n - kLocalStateHistorySize) =
      List.range' (n + 1 - min n 100) (min n 100) := by
  have hsplit : List.range' 1 n =
      List.range' 1 (n - kLocalStateHistorySize) ++
        List.range' (1 + 1 * (n - kLocalStateHistorySize)) (min n 100) := by
    rw [List.range'_append]
    congr 1
    simp only [kLocalStateHistorySize]; omega
  have hlen : (List.range' 1 (n - kLocalStateHistorySize)).length
      = n - kLocalStateHistorySize := List.length_range' _ _ _
  rw [hsplit, List.drop_left' hlen]
  congr 1
  simp only [kLocalStateHistorySize]; omega

/-- The state of the history after a run of the constructed host that sends fewer than
`2^32` messages. -/
theorem Create_Run_Frames (E : HostEnv) (ins : List HostInput)
    (hwrap : ((HostState.Create E).Sent ins).length < kFrameModulus) :
    ((HostState.Create E).Run ins).local_frame_ = ((HostState.Create E).Sent ins).length ∧
    ((HostState.Create E).Run ins).Frames =
      ((HostState.Create E).SentFrames ins).drop
        (((HostState.Create E).Sent ins).length - kLocalStateHistorySize) ∧
    ((HostState.Create E).Run ins).Frames =
      List.range' (((HostState.Create E).Run ins).local_frame_ + 1
          - min ((HostState.Create E).Run ins).local_frame_ 100)
        (min ((HostState.Create E).Run ins).local_frame_ 100) := by
  have h0 : (HostState.Create E).local_frame_ = 0 := rfl
  have hF0 : (HostState.Create E).Frames = [] := rfl
  have hlf : ((HostState.Create E).Run ins).local_frame_
      = ((HostState.Create E).Sent ins).length := by
    rw [HostState.Run_local_frame _ ins (by rw [h0]; simp [kFrameModulus]), h0, Nat.zero_add]
    exact Nat.mod_eq_of_lt hwrap
  have hSF : (HostState.Create E).SentFrames ins
      = List.range' 1 ((HostState.Create E).Sent ins).length := by
    rw [HostState.SentFrames_eq, h0]
    exact map_mod_range' _ hwrap
  have hFr := HostState.Run_Frames (HostState.Create E) ins (by rw [hF0]; simp)
  rw [hF0, List.nil_append] at hFr
  have hlen : ((HostState.Create E).SentFrames ins).length
      = ((HostState.Create E).Sent ins).length := by
    simp [HostState.SentFrames]
  rw [hlen] at hFr
  refine ⟨hlf, hFr, ?_⟩
  rw [hFr, hSF, hlf]
  exact drop_range'_newest _

/-- C12: the history of the host is the window of its newest sent frames.  After every run
of ticks of the constructed host in which fewer than `2^32` messages were sent (the
counter has not wrapped): `local_frame_` is the number of messages sent; the frame numbers
in the history, oldest first, are the newest 100 of the frame numbers sent, one record per
message, namely the consecutive numbers `max 1 (local_frame_ - 99), ..., local_frame_`,
strictly increasing; the last record, if any, has frame `local_frame_`; the size is
`min local_frame_ 100`; the search for a frame `F` succeeds if and only if
`max 1 (local_frame_ - 99) ≤ F ≤ local_frame_`, and then exactly one record has frame
`F`. -/
theorem C12_history_is_window_of_sent_frames (E : HostEnv) (ins : List HostInput)
    (hwrap : ((HostState.Create E).Sent ins).length < kFrameModulus) :
    ((HostState.Create E).Run ins).local_frame_ = ((HostState.Create E).Sent ins).length ∧
    ((HostState.Create E).Run ins).Frames =
      ((HostState.Create E).SentFrames ins).drop
        (((HostState.Create E).Sent ins).length - kLocalStateHistorySize) ∧
    ((HostState.Create E).Run ins).Frames =
      List.range' (max 1 (((HostState.Create E).Run ins).local_frame_ - 99))
        (min ((HostState.Create E).Run ins).local_frame_ 100) ∧
    ((HostState.Create E).Run ins).Frames.Pairwise (fun a b => a < b) ∧
    ((HostState.Create E).Run ins).Frames.Chain' (fun a b => b = a + 1) ∧
    ((HostState.Create E).Run ins).Frames.getLast? =
      (if ((HostState.Create E).Run ins).local_frame_ = 0 then none
       else some ((HostState.Create E).Run ins).local_frame_) ∧
    ((HostState.Create E).Run ins).local_state_history_.length =
      min ((HostState.Create E).Run ins).local_frame_ 100 ∧
    (∀ F : Nat,
      (HostState.FindRecord ((HostState.Create E).Run ins).local_state_history_ F).isSome = true
        ↔ max 1 (((HostState.Create E).Run ins).local_frame_ - 99) ≤ F ∧
          F ≤ ((HostState.Create E).Run ins).local_frame_) ∧
    (∀ F : Nat,
      max 1 (((HostState.Create E).Run ins).local_frame_ - 99) ≤ F →
      F ≤ ((HostState.Create E).Run ins).local_frame_ →
      (((HostState.Create E).Run ins).local_state_history_.filter
        (fun record => record.frame == F)).length = 1) := by
  obtain ⟨hlf, hdrop, hrange⟩ := Create_Run_Frames E ins hwrap
  have hstart : ((HostState.Create E).Run ins).local_frame_ + 1
        - min ((HostState.Create E).Run ins).local_frame_ 100
      = max 1 (((HostState.Create E).Run ins).local_frame_ - 99) := by omega
  rw [hstart] at hrange
  have hmem : ∀ F : Nat, F ∈ ((HostState.Create E).Run ins).Frames ↔
      max 1 (((HostState.Create E).Run ins).local_frame_ - 99) ≤ F ∧
        F ≤ ((HostState.Create E).Run ins).local_frame_ := by
    intro F
    rw [hrange, List.mem_range'_1]
    omega
  refine ⟨hlf, hdrop, hrange, ?_, ?_, ?_, ?_, ?_, ?_⟩
  · rw [hrange]; exact List.pairwise_lt_range' _ _
  · rw [hrange]
    cases hm : min ((HostState.Create E).Run ins).local_frame_ 100 with
    | zero => simp
    | succ m =>
      rw [List.range'_succ]
      exact List.chain_succ_range' _ _ 1
  · rw [hrange, List.getLast?_range']
    by_cases h0 : ((HostState.Create E).Run ins).local_frame_ = 0
    · simp [h0]
    · have hne : min ((HostState.Create E).Run ins).local_frame_ 100 ≠ 0 := by omega
      rw [if_neg hne, if_neg h0]
      congr 1
      omega
  · have := congrArg List.length hrange
    simpa [HostState.Frames] using this
  · intro F
    rw [HostState.FindRecord_isSome]
    exact hmem F
  · intro F h1 h2
    have hin : F ∈ ((HostState.Create E).Run ins).Frames := (hmem F).mpr ⟨h1, h2⟩
    have hnodup : ((HostState.Create E).Run ins).Frames.Nodup := by
      rw [hrange]; exact List.nodup_range' _ _
    have hcount := List.count_eq_one_of_mem hnodup hin
    rw [List.count, HostState.Frames, List.countP_map, List.countP_eq_length_filter] at hcount
    exact hcount

/-- C12 at a concrete run: the constructed example host left alone for 101 ticks. -/
theorem C12_history_is_window_of_sent_frames_witness :
    ((HostState.Create exampleHostEnv).Sent (List.replicate 101 HostInput.idle)).length
      < kFrameModulus ∧
    ((HostState.Create exampleHostEnv).Run (List.replicate 101 HostInput.idle)).local_frame_
      = ((HostState.Create exampleHostEnv).Sent (List.replicate 101 HostInput.idle)).length ∧
    ((HostState.Create exampleHostEnv).Run
        (List.replicate 101 HostInput.idle)).local_state_history_.length =
      min ((HostState.Create exampleHostEnv).Run
        (List.replicate 101 HostInput.idle)).local_frame_ 100 :=
  have hwrap : ((HostState.Create exampleHostEnv).Sent
      (List.replicate 101 HostInput.idle)).length < kFrameModulus :=
    lt_of_le_of_lt (HostState.Sent_length_le _ _) (by simp [kFrameModulus])
  have h := C12_history_is_window_of_sent_frames exampleHostEnv
    (List.replicate 101 HostInput.idle) hwrap
  ⟨hwrap, h.1, h.2.2.2.2.2.2.1⟩

end RewindLab
